import Mathlib

/-!
Shallow embedding of the `class-utils` JavaScript library (src/unnamed/part_000)
and proofs about its specification.

Modelling conventions:
* Property keys are strings or symbols (`PKey`).  Symbol id 0 stands for the
  well-known symbol `Symbol.toStringTag`; user symbols use ids ≥ 2.
* Functions are modelled by `Fn`: `Fn.base i` is an abstract original function
  with identity `i`; `Fn.guarded cid cname prop orig` is the wrapper closure
  produced by `validateInterface` (it records the captured constructor identity
  `cid`, its `name`, the `prop` label, and the wrapped original).  Structural
  equality of `Fn` models JavaScript function identity: wrapping always yields
  a function distinct from every original.
* A property descriptor is the full attribute record returned by
  `Object.getOwnPropertyDescriptor`: a data slot (`value`/`writable`) or an
  accessor slot (`get`/`set`), plus `enumerable` and `configurable`.
* An object is its ordered list of own properties plus its extensibility bit.
  The list order is the host enumeration order; `Object.getOwnPropertyNames`
  yields its string keys in that order and `Object.getOwnPropertySymbols` its
  symbol keys in that order.
* Machine state that the library mutates (the iterator result record, the
  restriction registry) is threaded explicitly.
* Fallible code returns `Except JSError`; a JavaScript `throw TypeError(...)`
  is `Except.error (JSError.typeError msg)`, surfaced to the immediate caller.
-/

namespace ClassUtils

/-- A JavaScript property key: a string or a symbol (identified by a number). -/
inductive PKey
  | str (s : String)
  | sym (id : Nat)
deriving DecidableEq, Repr

/-- The well-known symbol `Symbol.toStringTag`. -/
def toStringTagKey : PKey := PKey.sym 0

/-- Whether a key is a string key (`getOwnPropertyNames` keys). -/
def PKey.isStringKey : PKey → Bool
  | .str _ => true
  | .sym _ => false

/-- The two error categories raised by the library: both are host `TypeError`s
carrying a message. -/
inductive JSError
  | typeError (msg : String)
deriving DecidableEq, Repr

/-- A JavaScript function value.  `base` is an abstract original function;
`guarded` is the closure that `validateInterface` builds around an original:
it captures the constructor (identity and `name`) and the property label used
in its error message.  `Object.setPrototypeOf(wrapper, original)` only changes
the wrapper prototype chain and is not observable through the claims, so it is
not modelled beyond the wrapper keeping the original inside it. -/
inductive Fn
  | base (id : Nat)
  | guarded (ifaceId : Nat) (ifaceName : String) (prop : PKey) (original : Fn)
deriving DecidableEq, Repr

/-- An element of a JavaScript array used as an exclusion list.  `indexOf`
compares with strict equality, so only string and symbol elements can ever
match a property key; any other element is abstracted by `other`. -/
inductive ArrayElem
  | str (s : String)
  | sym (id : Nat)
  | other (tag : Nat)
deriving DecidableEq, Repr

/-- A JavaScript value as far as the library inspects values: primitives,
an abstract object reference, an array of (key-like) elements, or a function. -/
inductive Value
  | undef
  | nullv
  | boolean (b : Bool)
  | number (n : Int)
  | str (s : String)
  | symbol (id : Nat)
  | objRef (id : Nat)
  | arr (elems : List ArrayElem)
  | func (f : Fn)
deriving DecidableEq, Repr

/-- The test `typeof v` against the function type-category, used by the
library on descriptor values. -/
def Value.isFunc : Value → Bool
  | .func _ => true
  | _ => false

/-- A full property descriptor as returned by `getOwnPropertyDescriptor`:
either `value` is present (data property, with `writable`) or it is absent
(accessor property, with `get`/`set`, each possibly `undefined` = `none`). -/
structure Descriptor where
  value : Option Value := none
  writable : Bool := false
  get : Option Fn := none
  set : Option Fn := none
  enumerable : Bool := false
  configurable : Bool := false
deriving DecidableEq, Repr

/-- An object: its ordered own-property table and its extensibility bit. -/
structure Obj where
  props : List (PKey × Descriptor) := []
  extensible : Bool := true
deriving DecidableEq, Repr

/-- First-match association lookup in a property table. -/
def assocFind (l : List (PKey × Descriptor)) (k : PKey) : Option Descriptor :=
  (l.find? (fun kv => decide (kv.1 = k))).map Prod.snd

/-- The host `Object.getOwnPropertyDescriptor(o, k)` (also the one-key lookup behind
`hasOwnProperty`). -/
def lookupDesc (o : Obj) (k : PKey) : Option Descriptor :=
  assocFind o.props k

/-- Source `hasOwn`: `Object.prototype.hasOwnProperty.call(obj, key)`. -/
def hasOwn (o : Obj) (k : PKey) : Bool :=
  (lookupDesc o k).isSome

/-- String keys of an object in enumeration order
(`Object.getOwnPropertyNames`). -/
def stringKeys (o : Obj) : List PKey :=
  (o.props.map Prod.fst).filter PKey.isStringKey

/-- Symbol keys of an object in definition order
(`Object.getOwnPropertySymbols`). -/
def symbolKeys (o : Obj) : List PKey :=
  (o.props.map Prod.fst).filter (fun k => !k.isStringKey)

/-- The key list built at iterator creation in `propertiesOf`:
`Object.getOwnPropertyNames(o)` concatenated with
`Object.getOwnPropertySymbols(o)`. -/
def ownKeys (o : Obj) : List PKey :=
  stringKeys o ++ symbolKeys o

/-- A function object: its identity, its `name`, the own-property table of the
function object itself (the static side; it contains the `prototype` key for
constructor-like functions), and the object its `prototype` slot refers to
(the instance side).  Arrow and bound functions are modelled as `FuncVal`s
whose `statics` lack a `prototype` key. -/
structure FuncVal where
  id : Nat
  name : String
  statics : Obj := {}
  proto : Obj := {}
deriving DecidableEq, Repr

/-- A JavaScript value as it can be passed to the public entry points:
primitives, a plain (non-callable) object, or a function. -/
inductive JSVal
  | undef
  | nullv
  | boolean (b : Bool)
  | number (n : Int)
  | str (s : String)
  | symbol (id : Nat)
  | object (o : Obj)
  | callable (f : FuncVal)
deriving DecidableEq, Repr

/-- The result of the host `typeof` operator (note that `typeof` maps `null`
to the object type-category). -/
def typeofStr : JSVal → String
  | .undef => "undefined"
  | .nullv => "object"
  | .boolean _ => "boolean"
  | .number _ => "number"
  | .str _ => "string"
  | .symbol _ => "symbol"
  | .object _ => "object"
  | .callable _ => "function"

def prototypeName : String := "prototype"

def constructorName : String := "constructor"

def excludeName : String := "exclude"

def excludeStaticName : String := "excludeStatic"

def namePropName : String := "name"

def lengthName : String := "length"

def prototypeKey : PKey := PKey.str prototypeName

def constructorKey : PKey := PKey.str constructorName

def excludeKey : PKey := PKey.str excludeName

def excludeStaticKey : PKey := PKey.str excludeStaticName

def nameKey : PKey := PKey.str namePropName

/-- Source `isConstructor`:
a `typeof` function-category test conjoined with `hasOwn(iface, prototype)`.
The `&&` short-circuits, so the property table is only consulted for
function-typed values. -/
def isConstructor (iface : JSVal) : Bool :=
  match iface with
  | .callable f => hasOwn f.statics prototypeKey
  | _ => false

def mustBeCtorSuffix : String := " must be a constructor."

/-- Source `verifyIsConstructor`: returns the argument when `isConstructor`
holds, otherwise throws a `TypeError` whose message appends
`mustBeCtorSuffix` to the parameter name.
Both call sites in the library leave `name` defaulted to the string `iface`. -/
def verifyIsConstructor (iface : JSVal) (name : String) : Except JSError FuncVal :=
  match iface with
  | .callable f =>
      if hasOwn f.statics prototypeKey then .ok f
      else .error (.typeError (name ++ mustBeCtorSuffix))
  | _ => .error (.typeError (name ++ mustBeCtorSuffix))

def ifaceArgName : String := "iface"

/-! ### The object wrapper coercion `Object(o)` used by `propertiesOf` -/

/-- Own properties of the `String` wrapper object for a primitive string:
one non-writable enumerable index property per character (in ascending index
order), followed by the non-enumerable `length` property.  Wrappers for other
primitives (and `Object(null)` / `Object(undefined)`, which yield a fresh
empty object) have no own properties. -/
def stringWrapperProps (s : String) : List (PKey × Descriptor) :=
  ((List.range s.length).map (fun i =>
    (PKey.str (toString i),
      { value := some (.str (String.mk [s.toList.getD i ' '])),
        writable := false, enumerable := true, configurable := false })))
  ++ [(PKey.str lengthName,
      { value := some (.number (s.length : Int)),
        writable := false, enumerable := false, configurable := false })]

/-- The coercion `o = Object(o)` at the top of `propertiesOf`: objects pass through (for a
function, its own-property table is the static table), primitives are coerced
to their wrapper objects, and `null`/`undefined` become a fresh empty object. -/
def toObject : JSVal → Obj
  | .object o => o
  | .callable f => f.statics
  | .str s => { props := stringWrapperProps s, extensible := true }
  | _ => { props := [], extensible := true }

/-! ### The `propertiesOf` iterator

The source allocates ONE result record (`result`) with a `done` flag and ONE
`value` array, and every `next()` call returns that same record after mutating
the array in place.  The embedding therefore carries the record inside the
iterator state; the value `next()` hands back is (a reference to) the state
record `result`, so two calls returning the very same object is represented by
there being a single `result` field whose contents are overwritten. -/

/-- An element of the shared `result.value` array: slot 0 holds the key and
slot 1 holds the descriptor (which is `undefined` = `none` when the property
vanished between iterator creation and the step that reads it). -/
inductive IterCell
  | key (k : PKey)
  | desc (d : Option Descriptor)
deriving DecidableEq, Repr

/-- The single result record of a `propertiesOf` iterator: the `done` flag,
the contents of the shared `value` array, and whether that array has been
frozen (which happens at exhaustion). -/
structure IterResult where
  done : Bool := false
  value : List IterCell := []
  frozen : Bool := false
deriving DecidableEq, Repr

/-- Iterator state: the key list snapshotted at creation
(`getOwnPropertyNames` plus `getOwnPropertySymbols`), the cursor, and the
shared result record. -/
structure IterState where
  keys : List PKey
  index : Nat
  result : IterResult
deriving DecidableEq, Repr

/-- Source `propertiesOf(o)`: coerces the argument to an object, snapshots its
key list (string keys in enumeration order, then symbol keys), and allocates
the shared result record with `done: false` and an empty, unfrozen array. -/
def propertiesOf (v : JSVal) : IterState :=
  { keys := ownKeys (toObject v), index := 0, result := {} }

/-- One `next()` call.  `oCur` is the current state of the object the iterator
closes over: descriptors are read lazily (`getOwnPropertyDescriptor` runs
inside `next`, not at creation).  In range: the cursor advances and the shared
array is overwritten with the pair for the current key (the `done` flag is left
as it is, and the array `frozen` state is untouched — the array can only be
frozen after exhaustion, when the cursor can no longer be in range).  Out of
range: `done` is set, the array is emptied and frozen, and the same record is
returned again; no call path can throw. -/
def iterNext (oCur : Obj) (s : IterState) : IterState :=
  if h : s.index < s.keys.length then
    let k := s.keys.get ⟨s.index, h⟩
    { s with
      index := s.index + 1,
      result := { s.result with value := [IterCell.key k, IterCell.desc (lookupDesc oCur k)] } }
  else
    { s with result := { done := true, value := [], frozen := true } }

/-- Runs `n` successive `next()` calls against a fixed object state. -/
def iterSteps (oCur : Obj) (s : IterState) : Nat → IterState
  | 0 => s
  | n + 1 => iterNext oCur (iterSteps oCur s n)

/-! ### `validateInterface` and the runtime behaviour of guarded functions -/

/-- The identity and `name` of the constructor captured by a guard wrapper.
In the source the wrapper captures `object.constructor`; when `restrict`
processes `C.prototype` this is the class `C` itself (the standard
self-referential `constructor` slot). -/
structure CtorRef where
  id : Nat
  name : String
deriving DecidableEq, Repr

/-- Source `validateInterface(iface, prop, original)`: builds the guard
closure.  Its body runs only when the wrapper is invoked, so building the
wrapper never evaluates `prop` as a string and cannot throw. -/
def validateInterface (c : CtorRef) (prop : PKey) (original : Fn) : Fn :=
  Fn.guarded c.id c.name prop original

/-- A call receiver (`this`).  `chain` lists the identities of the
constructors whose `prototype` object lies on the receiver prototype chain,
so `this instanceof iface` is membership of the constructor identity. -/
structure Receiver where
  chain : List Nat
deriving DecidableEq, Repr

/-- The check `this instanceof iface` for a modelled receiver. -/
def Receiver.isInstanceOf (r : Receiver) (cid : Nat) : Bool :=
  r.chain.contains cid

def quoteMark : String := "\x27"

def guardMsgMiddle : String := " called on an object that does not implement interface "

def dotMark : String := "."

/-- The message of the `TypeError` thrown by a guard wrapper for a
string-labelled property:
the property label in quote marks, then `guardMsgMiddle`, then the interface
name and a full stop, exactly as the source concatenation builds it. -/
def interfaceErrorMessage (propLabel ifaceName : String) : String :=
  quoteMark ++ propLabel ++ quoteMark ++ guardMsgMiddle ++ ifaceName ++ dotMark

def symbolConversionMsg : String := "Cannot convert a Symbol value to a string"

/-- The message of the `TypeError` a failing guard actually raises.  The
source builds it by string concatenation that begins by appending `prop` to
a quote mark; when
`prop` is a symbol that very concatenation throws the host symbol-to-string
conversion `TypeError` before the interface name is ever reached, so the
raised error names neither the property nor the interface in that case. -/
def guardFailMessage (prop : PKey) (ifaceName : String) : String :=
  match prop with
  | .str s => interfaceErrorMessage s ifaceName
  | .sym _ => symbolConversionMsg

/-- The outcome of invoking a modelled function on a receiver and arguments.
`ok i r a` stands for whatever the abstract original function `i` returns when
applied with receiver `r` and argument list `a`; `thrown e` is a raised error. -/
inductive CallResult
  | ok (originalId : Nat) (recv : Receiver) (args : List Value)
  | thrown (e : JSError)
deriving DecidableEq, Repr

/-- Invocation semantics.  A `base` function applies the original.  A guard
wrapper checks `this instanceof iface`; on success it forwards to the wrapped
original with the same receiver and the same arguments (returning whatever the
original returns), otherwise it throws the `TypeError` described by
`guardFailMessage`. -/
def callFn : Fn → Receiver → List Value → CallResult
  | .base i, r, a => .ok i r a
  | .guarded cid cname prop inner, r, a =>
      if r.isInstanceOf cid then callFn inner r a
      else .thrown (.typeError (guardFailMessage prop cname))

/-! ### `restrictProperties` -/

/-- Strict-equality membership test of a property key in the `exceptFor`
value: `Array.prototype.indexOf.call(exceptFor || 0, prop) >= 0`.  Only an
array can hold elements strictly equal to a key (a primitive string behaves
as an array-like of its one-character strings); every other value — including
the `0` that replaces a missing list — has no matching element. -/
def keyElem : PKey → ArrayElem
  | .str s => ArrayElem.str s
  | .sym i => ArrayElem.sym i

def isExcluded (exceptFor : Value) (k : PKey) : Bool :=
  match exceptFor with
  | .arr es => es.any (fun e => decide (e = keyElem k))
  | .str s => s.toList.any (fun ch => decide (k = PKey.str (String.mk [ch])))
  | _ => false

def getPrefixLabel : String := "get "

def setPrefixLabel : String := "set "

/-- Wraps one accessor slot on the instance side.  The source computes the
label eagerly (the prefix `get ` or `set ` concatenated with `prop`) while
building the wrapper,
so a symbol-keyed accessor makes `restrict` itself throw the symbol-to-string
conversion `TypeError`; an absent (`undefined`) accessor slot is left alone. -/
def wrapAccessor (c : CtorRef) (pre : String) (prop : PKey) :
    Option Fn → Except JSError (Option Fn)
  | none => .ok none
  | some f =>
      match prop with
      | .str s => .ok (some (validateInterface c (PKey.str (pre ++ s)) f))
      | .sym _ => .error (.typeError symbolConversionMsg)

/-- The per-property body of the `restrictProperties` loop, applied to a
property that was neither excluded nor non-configurable.  It mirrors the
source mutation of the descriptor copy: clear `configurable` and `enumerable`;
for a data slot additionally clear `writable` and, on the instance side only
(`isCtor = false`), wrap a function value unless the key is the string
`constructor`; for an accessor slot, on the instance side only, wrap `get` and
`set` (in that order, which fixes which error surfaces first). -/
def transformDesc (c : CtorRef) (isCtor : Bool) (prop : PKey) (d : Descriptor) :
    Except JSError Descriptor :=
  let d1 : Descriptor := { d with configurable := false, enumerable := false }
  match d1.value with
  | some v =>
      let d2 : Descriptor := { d1 with writable := false }
      match v with
      | .func f =>
          if !isCtor && decide (prop ≠ constructorKey) then
            .ok { d2 with value := some (.func (validateInterface c prop f)) }
          else .ok d2
      | _ => .ok d2
  | none =>
      if isCtor then .ok d1
      else
        match wrapAccessor c getPrefixLabel prop d1.get with
        | .error e => .error e
        | .ok g =>
            match wrapAccessor c setPrefixLabel prop d1.set with
            | .error e => .error e
            | .ok s => .ok { d1 with get := g, set := s }

/-- The collection loop of `restrictProperties`: it drains `propertiesOf
(object)` (whose pair sequence is exactly `ownKeys object` with the descriptor
of each key, the object being unchanged while the loop runs), skips excluded
and non-configurable properties, transforms the rest, and records the
transformed descriptors in order.  The first failing transformation aborts the
whole call, exactly like the `throw` inside the source loop. -/
def collectGo (c : CtorRef) (o : Obj) (isCtor : Bool) (exceptFor : Value) :
    List PKey → Except JSError (List (PKey × Descriptor))
  | [] => .ok []
  | k :: ks =>
      match lookupDesc o k with
      | none => collectGo c o isCtor exceptFor ks
      | some d =>
          if isExcluded exceptFor k || !d.configurable then
            collectGo c o isCtor exceptFor ks
          else
            match transformDesc c isCtor k d with
            | .error e => .error e
            | .ok d' =>
                match collectGo c o isCtor exceptFor ks with
                | .error e => .error e
                | .ok rest => .ok ((k, d') :: rest)

/-- One `Object.defineProperty(o, k, d)` call for a full descriptor `d`:
replaces the descriptor if the key is present, appends the property otherwise.
(`restrictProperties` only ever defines keys it collected from the object
itself, all of them configurable, so the calls it makes cannot throw.) -/
def defineOne (o : Obj) (k : PKey) (d : Descriptor) : Obj :=
  if hasOwn o k then
    { o with props := o.props.map (fun kv => if kv.1 = k then (k, d) else kv) }
  else
    { o with props := o.props ++ [(k, d)] }

/-- The host `Object.defineProperties(o, descriptors)`: applies the collected
descriptors in order. -/
def defineProperties (o : Obj) (ds : List (PKey × Descriptor)) : Obj :=
  ds.foldl (fun acc kd => defineOne acc kd.1 kd.2) o

/-- Source `restrictProperties(object, isConstructor, exceptFor)`: collect the
updated descriptors over the own keys of `object`, then apply them with
`Object.defineProperties`, returning the (mutated) object. -/
def restrictProperties (c : CtorRef) (o : Obj) (isCtor : Bool) (exceptFor : Value) :
    Except JSError Obj :=
  match collectGo c o isCtor exceptFor (ownKeys o) with
  | .error e => .error e
  | .ok ds => .ok (defineProperties o ds)

/-! ### `restrict` -/

def readNullMsg : String := "Cannot read properties of null"

def readUndefMsg : String := "Cannot read properties of undefined"

def toObjectNullMsg : String := "Cannot convert undefined or null to object"

def notExtensibleMsg : String := "Cannot define property, object is not extensible"

/-- Reading a member (`exceptFor.exclude`, `exceptFor.excludeStatic`,
`exceptFor.name`) off the options value.  Property reads throw on `null` and
`undefined`; on a primitive they go through the wrapper object and yield
`undefined` for the option names; on objects they read the own data slot
(the library is only ever exercised with plain data options, so an accessor
slot is modelled by its absent `value`, i.e. `undefined`). -/
def getProp (o : Obj) (k : PKey) : Value :=
  match lookupDesc o k with
  | some d => d.value.getD Value.undef
  | none => Value.undef

def getMember (v : JSVal) (k : PKey) : Except JSError Value :=
  match v with
  | .undef => .error (.typeError readUndefMsg)
  | .nullv => .error (.typeError readNullMsg)
  | .object o => .ok (getProp o k)
  | .callable f => .ok (getProp f.statics k)
  | .str s => .ok (getProp { props := stringWrapperProps s, extensible := true } k)
  | _ => .ok Value.undef

/-- The tag-value choice: `exceptFor.name` when `hasOwn(exceptFor, name)`
holds, else `iface.name`.  `hasOwnProperty.call` throws on `null`/`undefined`
options; a primitive options value has no own `name` slot (the string wrapper
owns only index keys and `length`), so the constructor name is used. -/
def tagChoice (e : JSVal) (ctorName : String) : Except JSError Value :=
  match e with
  | .undef => .error (.typeError toObjectNullMsg)
  | .nullv => .error (.typeError toObjectNullMsg)
  | .object o => .ok (if hasOwn o nameKey then getProp o nameKey else Value.str ctorName)
  | .callable f =>
      .ok (if hasOwn f.statics nameKey then getProp f.statics nameKey else Value.str ctorName)
  | _ => .ok (Value.str ctorName)

/-- The descriptor created by `Object.defineProperty(prototype, toStringTag,
{ value: v })`: all attributes default to `false`. -/
def tagDescriptor (v : Value) : Descriptor :=
  { value := some v, writable := false, get := none, set := none,
    enumerable := false, configurable := false }

/-- The type-tag step of `restrict`: when the prototype lacks an own
`Symbol.toStringTag` property, define one whose value is `exceptFor.name`
when the options carry an own `name`, and the constructor `name` otherwise.
`Object.defineProperty` appends the new (symbol-keyed) property, and throws
when the prototype is not extensible. -/
def tagStep (proto : Obj) (e : JSVal) (ctorName : String) : Except JSError Obj :=
  if hasOwn proto toStringTagKey then .ok proto
  else
    match tagChoice e ctorName with
    | .error err => .error err
    | .ok v =>
        if proto.extensible then
          .ok { proto with props := proto.props ++ [(toStringTagKey, tagDescriptor v)] }
        else .error (.typeError notExtensibleMsg)

/-- The body of `restrict` once the argument is known not to be the options
shape and not to be registered: type-tag step on the prototype, then
`restrictProperties(prototype, 0, exceptFor.exclude)`, then
`restrictProperties(iface, 1, exceptFor.excludeStatic)`, returning the same
constructor (same identity) with its two property tables updated. -/
def restrictClass (f : FuncVal) (e : JSVal) : Except JSError FuncVal :=
  match tagStep f.proto e f.name with
  | .error err => .error err
  | .ok proto1 =>
      match getMember e excludeKey with
      | .error err => .error err
      | .ok ex =>
          match restrictProperties ⟨f.id, f.name⟩ proto1 false ex with
          | .error err => .error err
          | .ok proto2 =>
              match getMember e excludeStaticKey with
              | .error err => .error err
              | .ok exS =>
                  match restrictProperties ⟨f.id, f.name⟩ f.statics true exS with
                  | .error err => .error err
                  | .ok statics2 => .ok { f with proto := proto2, statics := statics2 }

/-- What a `restrict` call evaluates to. -/
inductive RestrictResult
  | cls (f : FuncVal)
  | curried (captured : JSVal)
  | registered (v : JSVal)
deriving DecidableEq, Repr

/-- The process-wide restriction registry `restrictMap` is a `WeakSet` of
constructors, modelled by the list of their identities.  `WeakSet.has` is
`false` for any value that was never added (including primitives). -/
def registryHas (registry : List Nat) (v : JSVal) : Bool :=
  match v with
  | .callable f => decide (f.id ∈ registry)
  | _ => false

/-- The defaulting step: a missing or undefined `exceptFor` becomes an empty
options object; anything else passes through. -/
def normExceptFor : Option JSVal → JSVal
  | none => JSVal.object {}
  | some .undef => JSVal.object {}
  | some v => v

/-- Source `restrict(iface, exceptFor)`.  The registry is threaded in and out
explicitly; note that the source only ever READS `restrictMap` — no code path
adds the processed constructor to it, so the returned registry is always the
input registry.  Call shapes: a first argument of the object type-category (including
`null`) is treated as the options and a reusable function capturing it is
returned; a registered constructor is returned unchanged; otherwise the
argument is verified to be a constructor and processed. -/
def objectTypeName : String := "object"

def restrict (registry : List Nat) (iface : JSVal) (exceptFor : Option JSVal) :
    Except JSError (RestrictResult × List Nat) :=
  if typeofStr iface = objectTypeName then
    .ok (.curried iface, registry)
  else if registryHas registry iface then
    .ok (.registered iface, registry)
  else
    let e := normExceptFor exceptFor
    match verifyIsConstructor iface ifaceArgName with
    | .error err => .error err
    | .ok f =>
        match restrictClass f e with
        | .error err => .error err
        | .ok g => .ok (.cls g, registry)

/-- The reusable function returned by the options-only call shape
`restrict(options)`: `function(iface) { return restrict(verifyIsConstructor
(iface), exceptFor); }`.  It verifies its argument first, so a non-constructor
throws before `restrict` re-enters. -/
def applyCurried (registry : List Nat) (captured : JSVal) (iface : JSVal) :
    Except JSError (RestrictResult × List Nat) :=
  match verifyIsConstructor iface ifaceArgName with
  | .error err => .error err
  | .ok _ => restrict registry iface (some captured)

/-! ### `sealed` -/

/-- The host `Object.seal`: every own property becomes non-configurable (values,
writability and enumerability untouched) and the object stops being
extensible. -/
def sealObj (o : Obj) : Obj :=
  { props := o.props.map (fun kv => (kv.1, { kv.2 with configurable := false })),
    extensible := false }

/-- Source `sealed(iface)`: verify the argument is a constructor, seal the
constructor object and its prototype, and return the same constructor. -/
def sealed (iface : JSVal) : Except JSError FuncVal :=
  match verifyIsConstructor iface ifaceArgName with
  | .error e => .error e
  | .ok f => .ok { f with statics := sealObj f.statics, proto := sealObj f.proto }

/-! ### Host-object-model observations used to state the sealing claim -/

/-- Whether a property with key `k` can be added to `o`
(`Object.defineProperty` / assignment creating a new property requires the
object to be extensible). -/
def canAddProperty (o : Obj) (k : PKey) : Bool :=
  o.extensible && !hasOwn o k

/-- Whether `delete o[k]` can remove an existing property (it requires the
property to be configurable). -/
def canDeleteProperty (o : Obj) (k : PKey) : Bool :=
  match lookupDesc o k with
  | some d => d.configurable
  | none => false

/-- Whether the attributes of an existing property can still be redefined
(non-writable tightening aside, reconfiguration requires `configurable`). -/
def canReconfigure (o : Obj) (k : PKey) : Bool :=
  match lookupDesc o k with
  | some d => d.configurable
  | none => false

/-- Whether an assignment `o[k] = v` to an existing own property can change
the stored value (it must be a writable data property). -/
def canWriteValue (o : Obj) (k : PKey) : Bool :=
  match lookupDesc o k with
  | some d => d.value.isSome && d.writable
  | none => false

/-! ## Supporting lemmas: association lookup -/

/-! ## Sample data used by the claim theorems and witnesses -/

def pointName : String := "Point"

def arrowName : String := "arrow"

def boundDisplayName : String := "bound m"

/-- A class constructor: a callable carrying an own `prototype` slot. -/
def c8Class : FuncVal where
  id := 80
  name := pointName
  statics := { props := [(prototypeKey, { value := some (.objRef 800), configurable := false })] }
  proto := {}

/-- An arrow-style callable: it has no own `prototype` slot at all. -/
def c8Arrow : FuncVal where
  id := 81
  name := arrowName
  statics := {}
  proto := {}

/-- A bound reference to a method (`m.bind(x)`): callable, but its own
properties are only `length` and `name` — no own `prototype`. -/
def c8Bound : FuncVal where
  id := 82
  name := boundDisplayName
  statics :=
    { props :=
        [(PKey.str lengthName, { value := some (.number 0), configurable := true }),
         (nameKey, { value := some (.str boundDisplayName), configurable := true })] }
  proto := {}

def boxName : String := "Box"

def propCName : String := "propC"

def methodMName : String := "m"

def extraName : String := "extra"

/-- Sample class for the sealing claim: a writable configurable static data
property `propC` and a prototype method `m`. -/
def c9Class : FuncVal where
  id := 90
  name := boxName
  statics :=
    { props :=
        [(prototypeKey, { value := some (.objRef 900), configurable := false }),
         (PKey.str propCName,
          { value := some (.number 1), writable := true, enumerable := true,
            configurable := true })] }
  proto :=
    { props :=
        [(constructorKey,
          { value := some (.func (.base 90)), writable := true, configurable := true }),
         (PKey.str methodMName,
          { value := some (.func (.base 91)), writable := true, configurable := true })] }

/-- The result of sealing the sample class. -/
def c9Sealed : FuncVal :=
  match sealed (JSVal.callable c9Class) with
  | .ok g => g
  | .error _ => c9Class

def gadgetName : String := "Gadget"

def accessorXName : String := "x"

/-- Sample class for the attribute-locking claim. -/
def c2Class : FuncVal where
  id := 20
  name := gadgetName
  statics :=
    { props :=
        [(prototypeKey, { value := some (.objRef 200), configurable := false }),
         (PKey.str propCName,
          { value := some (.number 7), writable := true, enumerable := true,
            configurable := true }),
         (nameKey, { value := some (.str gadgetName), configurable := true })] }
  proto :=
    { props :=
        [(constructorKey,
          { value := some (.func (.base 20)), writable := true, configurable := true }),
         (PKey.str methodMName,
          { value := some (.func (.base 21)), writable := true, configurable := true }),
         (PKey.str accessorXName,
          { get := some (.base 22), set := some (.base 23), configurable := true })] }

/-- Options for the attribute-locking witness: `excludeStatic` listing the
key `propC`. -/
def c2Opts : Obj :=
  { props :=
      [(excludeStaticKey,
        { value := some (.arr [.str propCName]), writable := true, enumerable := true,
          configurable := true })] }

/-- The restricted sample class. -/
def c2Restricted : FuncVal :=
  match restrict [] (JSVal.callable c2Class) (some (JSVal.object c2Opts)) with
  | .ok (.cls g, _) => g
  | _ => c2Class

def paneName : String := "Pane"

/-- Sample class for the guard claim: a string-keyed method `m` and a
string-keyed accessor `x`. -/
def c3Class : FuncVal where
  id := 33
  name := paneName
  statics := { props := [(prototypeKey, { value := some (.objRef 330), configurable := false })] }
  proto :=
    { props :=
        [(constructorKey,
          { value := some (.func (.base 33)), writable := true, configurable := true }),
         (PKey.str methodMName,
          { value := some (.func (.base 34)), writable := true, configurable := true }),
         (PKey.str accessorXName,
          { get := some (.base 35), set := some (.base 36), configurable := true })] }

/-- The restricted guard-claim sample class. -/
def c3Restricted : FuncVal :=
  match restrict [] (JSVal.callable c3Class) (some (JSVal.object ({} : Obj))) with
  | .ok (.cls g, _) => g
  | _ => c3Class

/-- Substring test used to state that an error message does (not) mention a
name. -/
def strContainsB (hay needle : String) : Bool :=
  (List.range (hay.length + 1)).any (fun i => needle.toList.isPrefixOf (hay.toList.drop i))

def deviceName : String := "Device"

/-- A class whose prototype carries a symbol-keyed method. -/
def c3SymClass : FuncVal where
  id := 39
  name := deviceName
  statics := { props := [(prototypeKey, { value := some (.objRef 390), configurable := false })] }
  proto :=
    { props :=
        [(constructorKey,
          { value := some (.func (.base 39)), writable := true, configurable := true }),
         (PKey.sym 5,
          { value := some (.func (.base 40)), writable := true, configurable := true })] }

/-- The symbol-method sample after restriction. -/
def c3SymRestricted : FuncVal :=
  match restrict [] (JSVal.callable c3SymClass) none with
  | .ok (.cls g, _) => g
  | _ => c3SymClass

/-- The outcome of invoking the guarded symbol-keyed method with a receiver
that is not an instance of the class (empty prototype chain). -/
def c3SymGuardResult : CallResult :=
  match (lookupDesc c3SymRestricted.proto (PKey.sym 5)).bind Descriptor.value with
  | some (.func fn) => callFn fn ⟨[]⟩ []
  | _ => .ok 0 ⟨[]⟩ []

def accClassName : String := "Acc"

/-- A class whose prototype `constructor` slot is an accessor property. -/
def c5AccClass : FuncVal where
  id := 50
  name := accClassName
  statics := { props := [(prototypeKey, { value := some (.objRef 500), configurable := false })] }
  proto :=
    { props :=
        [(constructorKey, { get := some (.base 51), set := none, configurable := true })] }

/-- The accessor-constructor sample after restriction. -/
def c5AccRestricted : FuncVal :=
  match restrict [] (JSVal.callable c5AccClass) none with
  | .ok (.cls g, _) => g
  | _ => c5AccClass

def staticFName : String := "create"

/-- Sample class for the no-wrap claim: a static function-valued property
`create` and a data-valued prototype `constructor`. -/
def c5Class : FuncVal where
  id := 55
  name := accClassName
  statics :=
    { props :=
        [(prototypeKey, { value := some (.objRef 550), configurable := false }),
         (PKey.str staticFName,
          { value := some (.func (.base 56)), writable := true, configurable := true })] }
  proto :=
    { props :=
        [(constructorKey,
          { value := some (.func (.base 55)), writable := true, configurable := true })] }

/-- The no-wrap sample after restriction. -/
def c5Restricted : FuncVal :=
  match restrict [] (JSVal.callable c5Class) (some (JSVal.object ({} : Obj))) with
  | .ok (.cls g, _) => g
  | _ => c5Class

/-- Whether an (optional) property descriptor holds a function value. -/
def optValueIsFunc : Option Descriptor → Bool
  | some d => (d.value.getD Value.undef).isFunc
  | none => false

def taggedName : String := "Tagged"

def tagValName : String := "X"

/-- A class whose prototype already owns a configurable, enumerable, writable
data-valued type-tag property. -/
def c6TagClass : FuncVal where
  id := 60
  name := taggedName
  statics := { props := [(prototypeKey, { value := some (.objRef 600), configurable := false })] }
  proto :=
    { props :=
        [(constructorKey,
          { value := some (.func (.base 60)), writable := true, configurable := true }),
         (toStringTagKey,
          { value := some (.str tagValName), writable := true, enumerable := true,
            configurable := true })] }

/-- The pre-tagged sample after restriction. -/
def c6TagRestricted : FuncVal :=
  match restrict [] (JSVal.callable c6TagClass) none with
  | .ok (.cls g, _) => g
  | _ => c6TagClass

def widgetName : String := "Widget"

/-- Sample class for the registry claim: a single method `m`. -/
def c1Class : FuncVal where
  id := 11
  name := widgetName
  statics := { props := [(prototypeKey, { value := some (.objRef 110), configurable := false })] }
  proto :=
    { props :=
        [(constructorKey,
          { value := some (.func (.base 11)), writable := true, configurable := true }),
         (PKey.str methodMName,
          { value := some (.func (.base 12)), writable := true, configurable := true })] }

/-- Options for the first `restrict` call: `exclude` listing the key `m`. -/
def c1Opts : Obj :=
  { props :=
      [(excludeKey,
        { value := some (.arr [.str methodMName]), writable := true, enumerable := true,
          configurable := true })] }

/-- The registry sample after restricting with the key `m` excluded. -/
def c1After1 : FuncVal :=
  match restrict [] (JSVal.callable c1Class) (some (JSVal.object c1Opts)) with
  | .ok (.cls g, _) => g
  | _ => c1Class

/-- The registry sample after a second, option-less `restrict` call. -/
def c1After2 : FuncVal :=
  match restrict [] (JSVal.callable c1After1) none with
  | .ok (.cls g, _) => g
  | _ => c1Class

def alphaPropName : String := "a"

def betaPropName : String := "b"

/-- Sample object for the iterator claims: one string-keyed and one
symbol-keyed own property. -/
def c7Obj : Obj :=
  { props :=
      [(PKey.str alphaPropName,
        { value := some (.number 1), writable := true, enumerable := true,
          configurable := true }),
       (PKey.sym 7,
        { value := some (.number 2), writable := false, enumerable := false,
          configurable := false })] }

def c7Val : JSVal := JSVal.object c7Obj

/-- Sample object with two string-keyed properties for the shared-result
claim. -/
def c10Obj : Obj :=
  { props :=
      [(PKey.str alphaPropName,
        { value := some (.number 3), writable := true, enumerable := true,
          configurable := true }),
       (PKey.str betaPropName,
        { value := some (.number 4), writable := true, enumerable := true,
          configurable := true })] }

def c10Val : JSVal := JSVal.object c10Obj

theorem assocFind_nil (k : PKey) : assocFind [] k = none := rfl

theorem assocFind_cons (k0 : PKey) (d0 : Descriptor) (l : List (PKey × Descriptor)) (k : PKey) :
    assocFind ((k0, d0) :: l) k = if k0 = k then some d0 else assocFind l k := by
  unfold assocFind
  rcases h : (decide (k0 = k)) with _ | _
  · simp only [List.find?_cons, h]
    simp [of_decide_eq_false h]
  · simp only [List.find?_cons, h]
    simp [of_decide_eq_true h]

theorem assocFind_isSome_iff (l : List (PKey × Descriptor)) (k : PKey) :
    (assocFind l k).isSome = true ↔ k ∈ l.map Prod.fst := by
  induction l with
  | nil => simp [assocFind_nil]
  | cons kv rest ih =>
      rcases kv with ⟨k0, d0⟩
      rw [assocFind_cons]
      by_cases h : k0 = k
      · subst h; simp
      · simp [h, ih, Ne.symm h]

theorem assocFind_eq_none_of_not_mem (l : List (PKey × Descriptor)) (k : PKey)
    (h : k ∉ l.map Prod.fst) : assocFind l k = none := by
  rcases ha : assocFind l k with _ | d
  · rfl
  · exact absurd ((assocFind_isSome_iff l k).mp (by simp [ha])) h

theorem assocFind_append (l₁ l₂ : List (PKey × Descriptor)) (k : PKey) :
    assocFind (l₁ ++ l₂) k =
      match assocFind l₁ k with
      | some d => some d
      | none => assocFind l₂ k := by
  induction l₁ with
  | nil => simp [assocFind_nil]
  | cons kv rest ih =>
      rcases kv with ⟨k0, d0⟩
      rw [List.cons_append, assocFind_cons, assocFind_cons]
      by_cases h : k0 = k <;> simp [h, ih]

theorem lookupDesc_isSome_iff (o : Obj) (k : PKey) :
    (lookupDesc o k).isSome = true ↔ k ∈ o.props.map Prod.fst :=
  assocFind_isSome_iff o.props k

theorem hasOwn_iff_mem (o : Obj) (k : PKey) :
    hasOwn o k = true ↔ k ∈ o.props.map Prod.fst := by
  unfold hasOwn
  exact lookupDesc_isSome_iff o k

/-! ## Supporting lemmas: `ownKeys` -/

theorem ownKeys_perm (o : Obj) : List.Perm (ownKeys o) (o.props.map Prod.fst) :=
  List.filter_append_perm PKey.isStringKey (o.props.map Prod.fst)

theorem ownKeys_nodup (o : Obj) (h : (o.props.map Prod.fst).Nodup) : (ownKeys o).Nodup :=
  (List.Perm.nodup_iff (ownKeys_perm o)).mpr h

theorem mem_ownKeys_iff (o : Obj) (k : PKey) :
    k ∈ ownKeys o ↔ k ∈ o.props.map Prod.fst :=
  List.Perm.mem_iff (ownKeys_perm o)

theorem mem_ownKeys_of_lookup (o : Obj) (k : PKey) (d : Descriptor)
    (h : lookupDesc o k = some d) : k ∈ ownKeys o := by
  rw [mem_ownKeys_iff]
  exact (lookupDesc_isSome_iff o k).mp (by simp [h])

/-! ## Supporting lemmas: `defineOne` / `defineProperties` -/

theorem assocFind_replace_ne (l : List (PKey × Descriptor)) (k : PKey) (d : Descriptor)
    (k' : PKey) (hne : k' ≠ k) :
    assocFind (l.map (fun kv => if kv.1 = k then (k, d) else kv)) k' = assocFind l k' := by
  induction l with
  | nil => rfl
  | cons kv rest ih =>
      rcases kv with ⟨k0, d0⟩
      by_cases h0 : k0 = k
      · simp only [List.map_cons, if_pos h0, assocFind_cons]
        rw [if_neg (fun hh => hne hh.symm), if_neg (fun hh => hne (h0 ▸ hh).symm), ih]
      · simp only [List.map_cons, if_neg h0, assocFind_cons]
        by_cases h' : k0 = k'
        · rw [if_pos h', if_pos h']
        · rw [if_neg h', if_neg h', ih]

theorem assocFind_replace (l : List (PKey × Descriptor)) (k : PKey) (d : Descriptor)
    (k' : PKey) (hmem : k ∈ l.map Prod.fst) :
    assocFind (l.map (fun kv => if kv.1 = k then (k, d) else kv)) k' =
      if k' = k then some d else assocFind l k' := by
  by_cases h' : k' = k
  · rw [if_pos h']
    subst h'
    induction l with
    | nil => simp at hmem
    | cons kv rest ih =>
        rcases kv with ⟨k0, d0⟩
        by_cases h0 : k0 = k'
        · simp only [List.map_cons, if_pos h0, assocFind_cons, if_pos rfl]
          simp
        · simp only [List.map_cons, if_neg h0, assocFind_cons, if_neg h0]
          have hmem' : k' ∈ rest.map Prod.fst := by
            rcases List.mem_map.mp hmem with ⟨kv2, hkv2, hfst⟩
            rcases List.mem_cons.mp hkv2 with h | h
            · exact absurd (by rw [h] at hfst; exact hfst) h0
            · exact hfst ▸ List.mem_map_of_mem Prod.fst h
          exact ih hmem'
  · rw [if_neg h']
    exact assocFind_replace_ne l k d k' h'

theorem lookupDesc_defineOne (o : Obj) (k : PKey) (d : Descriptor) (k' : PKey) :
    lookupDesc (defineOne o k d) k' = if k' = k then some d else lookupDesc o k' := by
  unfold defineOne lookupDesc
  by_cases h : hasOwn o k
  · rw [if_pos h]
    exact assocFind_replace o.props k d k' ((hasOwn_iff_mem o k).mp h)
  · rw [if_neg h]
    show assocFind (o.props ++ [(k, d)]) k' = _
    rw [assocFind_append]
    by_cases h' : k' = k
    · subst h'
      have hnone : assocFind o.props k' = none := by
        rcases ha : assocFind o.props k' with _ | d0
        · rfl
        · exact absurd (show hasOwn o k' = true by unfold hasOwn lookupDesc; simp [ha]) h
      rw [hnone]
      simp [assocFind_cons]
    · rcases ha : assocFind o.props k' with _ | d0
      · simp [assocFind_cons, assocFind_nil, h', Ne.symm h']
      · simp [h']

theorem extensible_defineOne (o : Obj) (k : PKey) (d : Descriptor) :
    (defineOne o k d).extensible = o.extensible := by
  unfold defineOne
  by_cases h : hasOwn o k <;> simp [h]

theorem extensible_defineProperties (o : Obj) (ds : List (PKey × Descriptor)) :
    (defineProperties o ds).extensible = o.extensible := by
  induction ds generalizing o with
  | nil => rfl
  | cons kd rest ih =>
      show (defineProperties (defineOne o kd.1 kd.2) rest).extensible = o.extensible
      rw [ih, extensible_defineOne]

theorem lookupDesc_defineProperties (o : Obj) (ds : List (PKey × Descriptor)) (k : PKey)
    (hnd : (ds.map Prod.fst).Nodup) :
    lookupDesc (defineProperties o ds) k =
      match assocFind ds k with
      | some d => some d
      | none => lookupDesc o k := by
  induction ds generalizing o with
  | nil => simp [assocFind_nil, defineProperties]
  | cons kd rest ih =>
      rcases kd with ⟨k0, d0⟩
      have hnd' : (rest.map Prod.fst).Nodup := (List.nodup_cons.mp hnd).2
      have hk0 : k0 ∉ rest.map Prod.fst := (List.nodup_cons.mp hnd).1
      show lookupDesc (defineProperties (defineOne o k0 d0) rest) k = _
      rw [ih _ hnd', assocFind_cons]
      by_cases h : k0 = k
      · subst h
        rw [assocFind_eq_none_of_not_mem rest k0 hk0, if_pos rfl,
          lookupDesc_defineOne, if_pos rfl]
      · rw [if_neg h]
        rcases ha : assocFind rest k with _ | d1
        · rw [lookupDesc_defineOne, if_neg (fun hh => h hh.symm)]
        · rfl

/-! ## Supporting lemmas: `transformDesc` -/

theorem transformDesc_static (c : CtorRef) (k : PKey) (d : Descriptor) :
    transformDesc c true k d =
      .ok { d with configurable := false, enumerable := false,
                   writable := if d.value.isSome then false else d.writable } := by
  unfold transformDesc
  rcases hv : d.value with _ | v
  · simp [hv]
  · rcases v <;> simp [hv]

theorem transformDesc_ok_attrs (c : CtorRef) (ic : Bool) (k : PKey) (d d' : Descriptor)
    (hok : transformDesc c ic k d = .ok d') :
    d'.configurable = false ∧ d'.enumerable = false ∧
      (d.value.isSome = true → d'.writable = false) ∧ d'.value.isSome = d.value.isSome := by
  unfold transformDesc at hok
  rcases hv : d.value with _ | v
  · rw [hv] at hok
    simp only at hok
    by_cases hic : ic
    · rw [if_pos hic] at hok
      cases hok
      simp [hv]
    · rw [if_neg hic] at hok
      rcases hg : wrapAccessor c getPrefixLabel k d.get with e | g
      · rw [hg] at hok; cases hok
      · rw [hg] at hok
        rcases hs : wrapAccessor c setPrefixLabel k d.set with e | s
        · rw [hs] at hok; cases hok
        · rw [hs] at hok
          cases hok
          simp [hv]
  · rw [hv] at hok
    simp only at hok
    rcases v with _ | _ | _ | _ | _ | _ | _ | _ | fv
    case func =>
      simp only at hok
      by_cases hw : (!ic && decide (k ≠ constructorKey)) = true
      · rw [if_pos hw] at hok
        cases hok
        simp [hv]
      · rw [if_neg hw] at hok
        cases hok
        simp [hv]
    all_goals (cases hok; simp [hv])

theorem transformDesc_method (c : CtorRef) (k : PKey) (d : Descriptor) (m : Fn)
    (hv : d.value = some (Value.func m)) (hk : k ≠ constructorKey) :
    transformDesc c false k d =
      .ok { d with configurable := false, enumerable := false, writable := false,
                   value := some (Value.func (validateInterface c k m)) } := by
  unfold transformDesc
  simp [hv, hk]

theorem transformDesc_data_noWrap (c : CtorRef) (k : PKey) (d : Descriptor) (v : Value)
    (hv : d.value = some v) (hnw : v.isFunc = false ∨ k = constructorKey) :
    transformDesc c false k d =
      .ok { d with configurable := false, enumerable := false, writable := false } := by
  unfold transformDesc
  rcases hnw with hnf | hctor
  · rcases v <;> simp_all [Value.isFunc]
  · subst hctor
    rcases v <;> simp [hv]

theorem transformDesc_accessor_str (c : CtorRef) (s : String) (d : Descriptor)
    (hv : d.value = none) :
    transformDesc c false (PKey.str s) d =
      .ok { d with configurable := false, enumerable := false,
                   get := d.get.map (validateInterface c (PKey.str (getPrefixLabel ++ s))),
                   set := d.set.map (validateInterface c (PKey.str (setPrefixLabel ++ s))) } := by
  unfold transformDesc
  rcases hg : d.get with _ | g <;> rcases hs : d.set with _ | st <;>
    simp [hv, hg, hs, wrapAccessor]

theorem transformDesc_value_preserved (c : CtorRef) (ic : Bool) (k : PKey) (d d' : Descriptor)
    (hok : transformDesc c ic k d = .ok d')
    (hnw : d.value.isSome = false ∨ ic = true ∨ (∀ m : Fn, d.value ≠ some (Value.func m)) ∨
      k = constructorKey) :
    d'.value = d.value := by
  unfold transformDesc at hok
  rcases hv : d.value with _ | v
  · rw [hv] at hok
    simp only at hok
    by_cases hic : ic
    · rw [if_pos hic] at hok; cases hok; simp [hv]
    · rw [if_neg hic] at hok
      rcases hg : wrapAccessor c getPrefixLabel k d.get with e | g
      · rw [hg] at hok; cases hok
      · rw [hg] at hok
        rcases hs : wrapAccessor c setPrefixLabel k d.set with e | s
        · rw [hs] at hok; cases hok
        · rw [hs] at hok; cases hok; simp [hv]
  · rw [hv] at hok
    simp only at hok
    rcases v with _ | _ | _ | _ | _ | _ | _ | _ | fv
    case func =>
      simp only at hok
      rcases hnw with h | h | h | h
      · rw [hv] at h; simp at h
      · rw [if_neg (by simp [h])] at hok
        cases hok
        simp [hv]
      · exact absurd hv (h fv)
      · rw [if_neg (by simp [h])] at hok
        cases hok
        simp [hv]
    all_goals (cases hok; simp [hv])

/-! ## Supporting lemmas: `collectGo` -/

theorem collectGo_keys_sublist (c : CtorRef) (o : Obj) (ic : Bool) (ex : Value)
    (ks : List PKey) (ds : List (PKey × Descriptor))
    (hok : collectGo c o ic ex ks = .ok ds) :
    List.Sublist (ds.map Prod.fst) ks := by
  induction ks generalizing ds with
  | nil =>
      simp only [collectGo] at hok
      cases hok
      simp
  | cons k rest ih =>
      simp only [collectGo] at hok
      rcases hl : lookupDesc o k with _ | d <;> rw [hl] at hok
      · simp only at hok
        exact (ih ds hok).cons k
      · simp only at hok
        rcases hskip : (isExcluded ex k || !d.configurable) with _ | _ <;> rw [hskip] at hok
        · simp only [Bool.false_eq_true, if_false] at hok
          rcases ht : transformDesc c ic k d with e | d' <;> rw [ht] at hok
          · cases hok
          · rcases hrest : collectGo c o ic ex rest with e | rest' <;> rw [hrest] at hok
            · cases hok
            · cases hok
              simpa using (ih rest' hrest).cons₂ k
        · simp only [if_true] at hok
          exact (ih ds hok).cons k

theorem collectGo_assoc_some (c : CtorRef) (o : Obj) (ic : Bool) (ex : Value)
    (ks : List PKey) (ds : List (PKey × Descriptor)) (k : PKey) (d : Descriptor)
    (hok : collectGo c o ic ex ks = .ok ds) (hmem : k ∈ ks)
    (hd : lookupDesc o k = some d)
    (hkeep : (isExcluded ex k || !d.configurable) = false) :
    ∃ d', transformDesc c ic k d = .ok d' ∧ assocFind ds k = some d' := by
  induction ks generalizing ds with
  | nil => simp at hmem
  | cons k0 rest ih =>
      simp only [collectGo] at hok
      by_cases hk : k0 = k
      · subst hk
        rw [hd] at hok
        simp only at hok
        rw [hkeep] at hok
        simp only [Bool.false_eq_true, if_false] at hok
        rcases ht : transformDesc c ic k0 d with e | d' <;> rw [ht] at hok
        · cases hok
        · rcases hrest : collectGo c o ic ex rest with e | rest' <;> rw [hrest] at hok
          · cases hok
          · cases hok
            refine ⟨d', rfl, ?_⟩
            rw [assocFind_cons, if_pos rfl]
      · have hmem' : k ∈ rest := by
          rcases List.mem_cons.mp hmem with h | h
          · exact absurd h.symm hk
          · exact h
        rcases hl0 : lookupDesc o k0 with _ | d0 <;> rw [hl0] at hok <;> simp only at hok
        · exact ih ds hok hmem'
        · rcases hskip0 : (isExcluded ex k0 || !d0.configurable) with _ | _ <;>
            rw [hskip0] at hok
          · simp only [Bool.false_eq_true, if_false] at hok
            rcases ht0 : transformDesc c ic k0 d0 with e | d0' <;> rw [ht0] at hok
            · cases hok
            · rcases hrest : collectGo c o ic ex rest with e | rest' <;> rw [hrest] at hok
              · cases hok
              · cases hok
                rcases ih rest' hrest hmem' with ⟨d', h1, h2⟩
                refine ⟨d', h1, ?_⟩
                rw [assocFind_cons, if_neg hk]
                exact h2
          · simp only [if_true] at hok
            exact ih ds hok hmem'

theorem collectGo_assoc_none (c : CtorRef) (o : Obj) (ic : Bool) (ex : Value)
    (ks : List PKey) (ds : List (PKey × Descriptor)) (k : PKey)
    (hok : collectGo c o ic ex ks = .ok ds)
    (hskip : ∀ d, lookupDesc o k = some d → (isExcluded ex k || !d.configurable) = true) :
    assocFind ds k = none := by
  induction ks generalizing ds with
  | nil =>
      simp only [collectGo] at hok
      cases hok
      rfl
  | cons k0 rest ih =>
      simp only [collectGo] at hok
      rcases hl0 : lookupDesc o k0 with _ | d0 <;> rw [hl0] at hok <;> simp only at hok
      · exact ih ds hok
      · rcases hskip0 : (isExcluded ex k0 || !d0.configurable) with _ | _ <;>
          rw [hskip0] at hok
        · simp only [Bool.false_eq_true, if_false] at hok
          rcases ht0 : transformDesc c ic k0 d0 with e | d0' <;> rw [ht0] at hok
          · cases hok
          · rcases hrest : collectGo c o ic ex rest with e | rest' <;> rw [hrest] at hok
            · cases hok
            · cases hok
              have hk : ¬(k0 = k) := by
                intro hh
                subst hh
                rw [hl0] at hskip
                have := hskip d0 rfl
                rw [hskip0] at this
                cases this
              rw [assocFind_cons, if_neg hk]
              exact ih rest' hrest
        · simp only [if_true] at hok
          exact ih ds hok

/-! ## Supporting lemmas: `restrictProperties` -/

theorem restrictProperties_ok_parts (c : CtorRef) (o : Obj) (ic : Bool) (ex : Value)
    (o' : Obj) (hok : restrictProperties c o ic ex = .ok o') :
    ∃ ds, collectGo c o ic ex (ownKeys o) = .ok ds ∧ o' = defineProperties o ds := by
  unfold restrictProperties at hok
  rcases h : collectGo c o ic ex (ownKeys o) with e | ds <;> rw [h] at hok
  · cases hok
  · cases hok
    exact ⟨ds, rfl, rfl⟩

theorem restrictProperties_keep (c : CtorRef) (o : Obj) (ic : Bool) (ex : Value)
    (o' : Obj) (k : PKey) (d : Descriptor)
    (hnd : (o.props.map Prod.fst).Nodup)
    (hok : restrictProperties c o ic ex = .ok o')
    (hd : lookupDesc o k = some d)
    (hkeep : (isExcluded ex k || !d.configurable) = false) :
    ∃ d', transformDesc c ic k d = .ok d' ∧ lookupDesc o' k = some d' := by
  rcases restrictProperties_ok_parts c o ic ex o' hok with ⟨ds, hc, rfl⟩
  have hknd : (ds.map Prod.fst).Nodup :=
    (collectGo_keys_sublist c o ic ex (ownKeys o) ds hc).nodup (ownKeys_nodup o hnd)
  rcases collectGo_assoc_some c o ic ex (ownKeys o) ds k d hc
    (mem_ownKeys_of_lookup o k d hd) hd hkeep with ⟨d', ht, ha⟩
  refine ⟨d', ht, ?_⟩
  rw [lookupDesc_defineProperties o ds k hknd, ha]

theorem restrictProperties_skip (c : CtorRef) (o : Obj) (ic : Bool) (ex : Value)
    (o' : Obj) (k : PKey) (d : Descriptor)
    (hnd : (o.props.map Prod.fst).Nodup)
    (hok : restrictProperties c o ic ex = .ok o')
    (hd : lookupDesc o k = some d)
    (hskip : (isExcluded ex k || !d.configurable) = true) :
    lookupDesc o' k = some d := by
  rcases restrictProperties_ok_parts c o ic ex o' hok with ⟨ds, hc, rfl⟩
  have hknd : (ds.map Prod.fst).Nodup :=
    (collectGo_keys_sublist c o ic ex (ownKeys o) ds hc).nodup (ownKeys_nodup o hnd)
  have hnone : assocFind ds k = none := by
    apply collectGo_assoc_none c o ic ex (ownKeys o) ds k hc
    intro d0 hd0
    rw [hd0] at hd
    cases hd
    exact hskip
  rw [lookupDesc_defineProperties o ds k hknd, hnone]
  exact hd

theorem restrictProperties_absent (c : CtorRef) (o : Obj) (ic : Bool) (ex : Value)
    (o' : Obj) (k : PKey)
    (hnd : (o.props.map Prod.fst).Nodup)
    (hok : restrictProperties c o ic ex = .ok o')
    (hd : lookupDesc o k = none) :
    lookupDesc o' k = none := by
  rcases restrictProperties_ok_parts c o ic ex o' hok with ⟨ds, hc, rfl⟩
  have hknd : (ds.map Prod.fst).Nodup :=
    (collectGo_keys_sublist c o ic ex (ownKeys o) ds hc).nodup (ownKeys_nodup o hnd)
  have hnone : assocFind ds k = none := by
    apply collectGo_assoc_none c o ic ex (ownKeys o) ds k hc
    intro d0 hd0
    rw [hd0] at hd
    cases hd
  rw [lookupDesc_defineProperties o ds k hknd, hnone]
  exact hd

/-! ## Supporting lemmas: `tagStep` and `restrict` -/

theorem lookupDesc_append_left (o : Obj) (t : PKey) (td : Descriptor) (k : PKey) (d : Descriptor)
    (hd : lookupDesc o k = some d) :
    lookupDesc { o with props := o.props ++ [(t, td)] } k = some d := by
  unfold lookupDesc at hd ⊢
  rw [assocFind_append, hd]

theorem tagStep_present (proto : Obj) (e : JSVal) (n : String)
    (h : hasOwn proto toStringTagKey = true) : tagStep proto e n = .ok proto := by
  unfold tagStep
  rw [if_pos h]

theorem tagStep_absent_parts (proto : Obj) (e : JSVal) (n : String) (proto1 : Obj)
    (hok : tagStep proto e n = .ok proto1)
    (h : hasOwn proto toStringTagKey = false) :
    ∃ v, tagChoice e n = .ok v ∧ proto.extensible = true ∧
      proto1 = { proto with props := proto.props ++ [(toStringTagKey, tagDescriptor v)] } := by
  unfold tagStep at hok
  rw [if_neg (by simp [h])] at hok
  rcases hc : tagChoice e n with e' | v <;> rw [hc] at hok <;> simp only at hok
  · cases hok
  · by_cases hx : proto.extensible = true
    · rw [if_pos hx] at hok
      cases hok
      exact ⟨v, rfl, hx, rfl⟩
    · rw [if_neg hx] at hok
      cases hok

theorem ownKeys_append_symbolKey (o : Obj) (t : PKey) (td : Descriptor)
    (ht : t.isStringKey = false) :
    ownKeys { o with props := o.props ++ [(t, td)] } = ownKeys o ++ [t] := by
  unfold ownKeys stringKeys symbolKeys
  simp [List.filter_append, ht]

theorem nodup_append_key (o : Obj) (t : PKey) (td : Descriptor)
    (hnd : (o.props.map Prod.fst).Nodup) (h : hasOwn o t = false) :
    ((({ o with props := o.props ++ [(t, td)] } : Obj)).props.map Prod.fst).Nodup := by
  show ((o.props ++ [(t, td)]).map Prod.fst).Nodup
  rw [List.map_append]
  refine List.Nodup.append hnd (List.nodup_singleton t) ?_
  intro a ha hb
  simp only [List.map_cons, List.map_nil, List.mem_singleton] at hb
  subst hb
  exact absurd ((hasOwn_iff_mem o a).mpr ha) (by simp [h])

theorem registryHas_nil (v : JSVal) : registryHas [] v = false := by
  cases v <;> simp [registryHas]

theorem restrictClass_ok_parts (f : FuncVal) (e : JSVal) (g : FuncVal)
    (hok : restrictClass f e = .ok g) :
    ∃ proto1 ex proto2 exS statics2,
      tagStep f.proto e f.name = .ok proto1 ∧
      getMember e excludeKey = .ok ex ∧
      restrictProperties ⟨f.id, f.name⟩ proto1 false ex = .ok proto2 ∧
      getMember e excludeStaticKey = .ok exS ∧
      restrictProperties ⟨f.id, f.name⟩ f.statics true exS = .ok statics2 ∧
      g = { f with proto := proto2, statics := statics2 } := by
  unfold restrictClass at hok
  rcases h1 : tagStep f.proto e f.name with e1 | proto1 <;> rw [h1] at hok <;>
    simp only at hok
  · cases hok
  · rcases h2 : getMember e excludeKey with e2 | ex <;> rw [h2] at hok <;>
      simp only at hok
    · cases hok
    · rcases h3 : restrictProperties ⟨f.id, f.name⟩ proto1 false ex with e3 | proto2 <;>
        rw [h3] at hok <;> simp only at hok
      · cases hok
      · rcases h4 : getMember e excludeStaticKey with e4 | exS <;> rw [h4] at hok <;>
          simp only at hok
        · cases hok
        · rcases h5 : restrictProperties ⟨f.id, f.name⟩ f.statics true exS with e5 | statics2 <;>
            rw [h5] at hok <;> simp only at hok
          · cases hok
          · cases hok
            exact ⟨proto1, ex, proto2, exS, statics2, rfl, rfl, h3, rfl, h5, rfl⟩

theorem restrict_callable_ok (reg : List Nat) (f : FuncVal) (eo : Option JSVal)
    (g : FuncVal) (reg2 : List Nat)
    (hok : restrict reg (.callable f) eo = .ok (.cls g, reg2)) :
    reg2 = reg ∧ registryHas reg (.callable f) = false ∧
      hasOwn f.statics prototypeKey = true ∧
      restrictClass f (normExceptFor eo) = .ok g := by
  unfold restrict at hok
  rw [if_neg (by simp [typeofStr, objectTypeName])] at hok
  by_cases hr : registryHas reg (.callable f) = true
  · rw [if_pos hr] at hok
    simp at hok
  · rw [if_neg hr] at hok
    simp only [verifyIsConstructor] at hok
    by_cases hp : hasOwn f.statics prototypeKey = true
    · rw [if_pos hp] at hok
      simp only at hok
      rcases hrc : restrictClass f (normExceptFor eo) with e1 | g' <;> rw [hrc] at hok
      · cases hok
      · cases hok
        exact ⟨rfl, Bool.eq_false_iff.mpr hr, hp, rfl⟩
    · rw [if_neg hp] at hok
      cases hok

/-- The registry is never updated: whatever `restrict` returns, the output
registry is the input registry (the source never adds to `restrictMap`). -/
theorem restrict_registry_unchanged (reg : List Nat) (iface : JSVal)
    (eo : Option JSVal) (r : RestrictResult) (reg2 : List Nat)
    (hok : restrict reg iface eo = .ok (r, reg2)) : reg2 = reg := by
  unfold restrict at hok
  by_cases h1 : typeofStr iface = objectTypeName
  · rw [if_pos h1] at hok
    cases hok
    rfl
  · rw [if_neg h1] at hok
    by_cases h2 : registryHas reg iface = true
    · rw [if_pos h2] at hok
      cases hok
      rfl
    · rw [if_neg h2] at hok
      simp only at hok
      rcases h3 : verifyIsConstructor iface ifaceArgName with e | f <;> rw [h3] at hok <;>
        simp only at hok
      · cases hok
      · rcases h4 : restrictClass f (normExceptFor eo) with e | g <;> rw [h4] at hok
        · cases hok
        · cases hok
          rfl

/-- Decomposition of a successful class-processing `restrict` call: the
prototype the property pass runs over extends the original prototype (at most
by the fresh type-tag property, which preserves every pre-existing lookup and
key distinctness), and the returned constructor keeps its identity and name
while carrying the two updated property tables. -/
theorem restrict_parts (f : FuncVal) (eo : Option JSVal) (g : FuncVal) (reg2 : List Nat)
    (hnd : (f.proto.props.map Prod.fst).Nodup)
    (hok : restrict [] (.callable f) eo = .ok (.cls g, reg2)) :
    ∃ proto1 ex exS,
      (proto1.props.map Prod.fst).Nodup ∧
      (∀ k d, lookupDesc f.proto k = some d → lookupDesc proto1 k = some d) ∧
      getMember (normExceptFor eo) excludeKey = .ok ex ∧
      getMember (normExceptFor eo) excludeStaticKey = .ok exS ∧
      restrictProperties ⟨f.id, f.name⟩ proto1 false ex = .ok g.proto ∧
      restrictProperties ⟨f.id, f.name⟩ f.statics true exS = .ok g.statics ∧
      g.id = f.id ∧ g.name = f.name := by
  rcases restrict_callable_ok [] f eo g reg2 hok with ⟨hreg, hrh, hproto, hrc⟩
  rcases restrictClass_ok_parts f (normExceptFor eo) g hrc with
    ⟨proto1, ex, proto2, exS, statics2, h1, h2, h3, h4, h5, hg⟩
  subst hg
  by_cases htag : hasOwn f.proto toStringTagKey = true
  · rw [tagStep_present f.proto (normExceptFor eo) f.name htag] at h1
    cases h1
    exact ⟨f.proto, ex, exS, hnd, fun k d hd => hd, h2, h4, h3, h5, rfl, rfl⟩
  · have htag' : hasOwn f.proto toStringTagKey = false := Bool.eq_false_iff.mpr htag
    rcases tagStep_absent_parts f.proto (normExceptFor eo) f.name proto1 h1 htag' with
      ⟨v, hv, hx, hp1⟩
    subst hp1
    refine ⟨_, ex, exS, ?_, ?_, h2, h4, h3, h5, rfl, rfl⟩
    · exact nodup_append_key f.proto toStringTagKey (tagDescriptor v) hnd htag'
    · intro k d hd
      exact lookupDesc_append_left f.proto toStringTagKey (tagDescriptor v) k d hd

/-! ## Supporting lemmas: the `propertiesOf` iterator -/

theorem iterNext_keys (oCur : Obj) (s : IterState) : (iterNext oCur s).keys = s.keys := by
  unfold iterNext
  by_cases h : s.index < s.keys.length
  · rw [dif_pos h]
  · rw [dif_neg h]

theorem iterSteps_run (oCur : Obj) (ks : List PKey) (r0 : IterResult) (n : Nat)
    (hn : n < ks.length) :
    iterSteps oCur ⟨ks, 0, r0⟩ (n + 1) =
      ⟨ks, n + 1,
        { done := r0.done,
          value := [IterCell.key (ks.get ⟨n, hn⟩),
                    IterCell.desc (lookupDesc oCur (ks.get ⟨n, hn⟩))],
          frozen := r0.frozen }⟩ := by
  induction n with
  | zero =>
      show iterNext oCur ⟨ks, 0, r0⟩ = _
      unfold iterNext
      rw [dif_pos (show (0 : Nat) < ks.length from hn)]
  | succ m ih =>
      have hm : m < ks.length := Nat.lt_of_succ_lt hn
      show iterNext oCur (iterSteps oCur ⟨ks, 0, r0⟩ (m + 1)) = _
      rw [ih hm]
      unfold iterNext
      rw [dif_pos (show m + 1 < ks.length from hn)]

theorem iterSteps_index (oCur : Obj) (ks : List PKey) (r0 : IterResult) (m : Nat) :
    (iterSteps oCur ⟨ks, 0, r0⟩ m).index = min m ks.length ∧
      (iterSteps oCur ⟨ks, 0, r0⟩ m).keys = ks := by
  induction m with
  | zero => simp [iterSteps]
  | succ n ih =>
      rcases ih with ⟨hi, hk⟩
      have hkeys : (iterNext oCur (iterSteps oCur ⟨ks, 0, r0⟩ n)).keys = ks := by
        rw [iterNext_keys]
        exact hk
      refine ⟨?_, hkeys⟩
      show (iterNext oCur (iterSteps oCur ⟨ks, 0, r0⟩ n)).index = _
      unfold iterNext
      by_cases h : (iterSteps oCur ⟨ks, 0, r0⟩ n).index <
          (iterSteps oCur ⟨ks, 0, r0⟩ n).keys.length
      · rw [dif_pos h]
        rw [hi, hk] at h
        simp only
        rw [hi]
        omega
      · rw [dif_neg h]
        rw [hi, hk] at h
        rw [hi]
        omega

theorem iterSteps_exhaust (oCur : Obj) (ks : List PKey) (r0 : IterResult) (m : Nat)
    (hm : ks.length ≤ m) :
    (iterSteps oCur ⟨ks, 0, r0⟩ (m + 1)).result =
      { done := true, value := [], frozen := true } := by
  show (iterNext oCur (iterSteps oCur ⟨ks, 0, r0⟩ m)).result = _
  rcases iterSteps_index oCur ks r0 m with ⟨hi, hk⟩
  unfold iterNext
  rw [dif_neg ?hcond]
  case hcond =>
    rw [hi, hk]
    omega

/-! ## Supporting lemmas: `verifyIsConstructor` and `sealed` -/

theorem verifyIsConstructor_error (v : JSVal) (n : String) (h : isConstructor v = false) :
    verifyIsConstructor v n = .error (.typeError (n ++ mustBeCtorSuffix)) := by
  cases v with
  | callable f =>
      unfold verifyIsConstructor
      unfold isConstructor at h
      simp only at h ⊢
      rw [if_neg (by simp [h])]
  | _ => rfl

theorem sealed_ok_parts (f g : FuncVal) (hok : sealed (JSVal.callable f) = .ok g) :
    hasOwn f.statics prototypeKey = true ∧
      g = { f with statics := sealObj f.statics, proto := sealObj f.proto } := by
  unfold sealed verifyIsConstructor at hok
  simp only at hok
  by_cases hp : hasOwn f.statics prototypeKey = true
  · rw [if_pos hp] at hok
    simp only at hok
    cases hok
    exact ⟨hp, rfl⟩
  · rw [if_neg hp] at hok
    cases hok

theorem assocFind_seal (l : List (PKey × Descriptor)) (k : PKey) :
    assocFind (l.map (fun kv => (kv.1, { kv.2 with configurable := false }))) k =
      (assocFind l k).map (fun d => { d with configurable := false }) := by
  induction l with
  | nil => rfl
  | cons kv rest ih =>
      rcases kv with ⟨k0, d0⟩
      simp only [List.map_cons, assocFind_cons]
      by_cases h : k0 = k
      · rw [if_pos h, if_pos h]
        rfl
      · rw [if_neg h, if_neg h, ih]

theorem lookupDesc_sealObj (o : Obj) (k : PKey) :
    lookupDesc (sealObj o) k =
      (lookupDesc o k).map (fun d => { d with configurable := false }) := by
  unfold sealObj lookupDesc
  exact assocFind_seal o.props k

/-! ## The claims -/

/-- C8: `isConstructor(f)` returns `true` iff `f` is callable and has an own
(not inherited) `prototype` property: the first conjunct is the exact
characterization over every callable, the next conjuncts settle every
non-callable value category (for which the own-property table is never even
consulted, because `&&` short-circuits after `typeof`), and the last three
evaluate the three callable shapes the claim names — a class constructor
(`true`), an arrow-style callable (`false`), and a bound method reference
(`false`).  The embedding of `isConstructor` is a total pure function, which
is the model-level rendering of the no-side-effects, no-errors clause. -/
theorem isConstructor_characterization :
    (∀ f : FuncVal, isConstructor (JSVal.callable f) = hasOwn f.statics prototypeKey) ∧
    isConstructor JSVal.undef = false ∧
    isConstructor JSVal.nullv = false ∧
    (∀ b, isConstructor (JSVal.boolean b) = false) ∧
    (∀ n, isConstructor (JSVal.number n) = false) ∧
    (∀ s, isConstructor (JSVal.str s) = false) ∧
    (∀ i, isConstructor (JSVal.symbol i) = false) ∧
    (∀ o, isConstructor (JSVal.object o) = false) ∧
    isConstructor (JSVal.callable c8Class) = true ∧
    isConstructor (JSVal.callable c8Arrow) = false ∧
    isConstructor (JSVal.callable c8Bound) = false := by
  refine ⟨fun f => rfl, rfl, rfl, fun b => rfl, fun n => rfl, fun s => rfl,
    fun i => rfl, fun o => rfl, ?_, rfl, ?_⟩
  · rfl
  · rfl

/-- C4: `restrict` and `sealed` raise a `TypeError` synchronously to their
immediate caller whenever the first positional argument is not
constructor-like, except that `restrict` treats a first argument of the object
type-category as the options-only call shape and returns the reusable function,
which itself raises the same `TypeError` when later given a non-constructor.
In the embedding an error return carries no updated class value at all, which
renders the target-left-unmodified clause: the check runs before any property
is touched.  The registry argument is `[]`, which is the only value the
process-wide registry ever has (see the C1 theorem). -/
theorem restrict_sealed_reject_nonconstructor
    (v w u : JSVal) (o : Obj) (eo eo2 : Option JSVal) (cap : JSVal)
    (hv : typeofStr v ≠ objectTypeName) (hvc : isConstructor v = false)
    (hwc : isConstructor w = false) (huc : isConstructor u = false) :
    restrict [] v eo = .error (.typeError (ifaceArgName ++ mustBeCtorSuffix)) ∧
    restrict [] (JSVal.object o) eo2 = .ok (.curried (JSVal.object o), []) ∧
    applyCurried [] cap w = .error (.typeError (ifaceArgName ++ mustBeCtorSuffix)) ∧
    sealed u = .error (.typeError (ifaceArgName ++ mustBeCtorSuffix)) := by
  refine ⟨?_, rfl, ?_, ?_⟩
  · unfold restrict
    rw [if_neg hv, if_neg (by simp [registryHas_nil]),
      verifyIsConstructor_error v ifaceArgName hvc]
  · unfold applyCurried
    rw [verifyIsConstructor_error w ifaceArgName hwc]
  · unfold sealed
    rw [verifyIsConstructor_error u ifaceArgName huc]

/-- Witness for C4 at concrete inputs: the number `3` (not of the object
type-category, not a constructor), a plain options object for the curried shape,
an arrow-style callable handed to the curried function, and a string handed
to `sealed`. -/
theorem restrict_sealed_reject_nonconstructor_witness :
    restrict [] (JSVal.number 3) none =
      .error (.typeError (ifaceArgName ++ mustBeCtorSuffix)) ∧
    restrict [] (JSVal.object {}) none = .ok (.curried (JSVal.object {}), []) ∧
    applyCurried [] (JSVal.object {}) (JSVal.callable c8Arrow) =
      .error (.typeError (ifaceArgName ++ mustBeCtorSuffix)) ∧
    sealed (JSVal.str pointName) =
      .error (.typeError (ifaceArgName ++ mustBeCtorSuffix)) :=
  restrict_sealed_reject_nonconstructor (JSVal.number 3) (JSVal.callable c8Arrow)
    (JSVal.str pointName) {} none none (JSVal.object {})
    (by decide) (by decide) (by decide) (by decide)

/-- C9: `sealed(C)` returns the identical constructor (same identity and
name), and afterwards nothing can be added to, deleted from, or reconfigured
on either the constructor or its prototype — both stop being extensible and
every own property becomes non-configurable — while each existing property
keeps its value, writability and enumerability, so a previously writable data
property can still be assigned (`canWriteValue` is unchanged). -/
theorem sealed_locks_structure (f g : FuncVal) (k k2 kx : PKey) (d d2 : Descriptor)
    (hok : sealed (JSVal.callable f) = .ok g)
    (hd : lookupDesc f.statics k = some d)
    (hd2 : lookupDesc f.proto k2 = some d2) :
    g.id = f.id ∧ g.name = f.name ∧
    g.statics.extensible = false ∧ g.proto.extensible = false ∧
    canAddProperty g.statics kx = false ∧ canAddProperty g.proto kx = false ∧
    lookupDesc g.statics k = some { d with configurable := false } ∧
    canDeleteProperty g.statics k = false ∧ canReconfigure g.statics k = false ∧
    canWriteValue g.statics k = canWriteValue f.statics k ∧
    lookupDesc g.proto k2 = some { d2 with configurable := false } ∧
    canDeleteProperty g.proto k2 = false ∧ canReconfigure g.proto k2 = false ∧
    canWriteValue g.proto k2 = canWriteValue f.proto k2 := by
  rcases sealed_ok_parts f g hok with ⟨hp, hg⟩
  subst hg
  have hs := lookupDesc_sealObj f.statics k
  rw [hd] at hs
  have hpr := lookupDesc_sealObj f.proto k2
  rw [hd2] at hpr
  refine ⟨rfl, rfl, rfl, rfl, ?_, ?_, hs, ?_, ?_, ?_, hpr, ?_, ?_, ?_⟩
  · simp [canAddProperty, sealObj]
  · simp [canAddProperty, sealObj]
  · simp [canDeleteProperty, hs]
  · simp [canReconfigure, hs]
  · unfold canWriteValue
    rw [hs, hd]
    simp
  · simp [canDeleteProperty, hpr]
  · simp [canReconfigure, hpr]
  · unfold canWriteValue
    rw [hpr, hd2]
    simp

/-- Witness for C9: sealing the sample class locks its structure while the
writable static `propC` and the prototype method slot stay writable. -/
theorem sealed_locks_structure_witness :
    c9Sealed.id = c9Class.id ∧ c9Sealed.name = c9Class.name ∧
    c9Sealed.statics.extensible = false ∧ c9Sealed.proto.extensible = false ∧
    canAddProperty c9Sealed.statics (PKey.str extraName) = false ∧
    canAddProperty c9Sealed.proto (PKey.str extraName) = false ∧
    lookupDesc c9Sealed.statics (PKey.str propCName) =
      some { value := some (.number 1), writable := true, enumerable := true,
             configurable := false } ∧
    canDeleteProperty c9Sealed.statics (PKey.str propCName) = false ∧
    canReconfigure c9Sealed.statics (PKey.str propCName) = false ∧
    canWriteValue c9Sealed.statics (PKey.str propCName) =
      canWriteValue c9Class.statics (PKey.str propCName) ∧
    lookupDesc c9Sealed.proto (PKey.str methodMName) =
      some { value := some (.func (.base 91)), writable := true,
             configurable := false } ∧
    canDeleteProperty c9Sealed.proto (PKey.str methodMName) = false ∧
    canReconfigure c9Sealed.proto (PKey.str methodMName) = false ∧
    canWriteValue c9Sealed.proto (PKey.str methodMName) =
      canWriteValue c9Class.proto (PKey.str methodMName) :=
  sealed_locks_structure c9Class c9Sealed (PKey.str propCName) (PKey.str methodMName)
    (PKey.str extraName)
    { value := some (.number 1), writable := true, enumerable := true, configurable := true }
    { value := some (.func (.base 91)), writable := true, configurable := true }
    (by rfl) (by rfl) (by rfl)

/-- C2: after a completed `restrict(C, E)`, every own property of
`C.prototype` that was configurable and not named in `E.exclude` is
non-configurable and non-enumerable (data properties among them additionally
non-writable), every own configurable static property of `C` not named in
`E.excludeStatic` likewise, and excluded keys and already-non-configurable
properties keep exactly the descriptor they had before the call. -/
theorem restrict_locks_attributes
    (f : FuncVal) (opts : Obj) (g : FuncVal) (reg2 : List Nat)
    (k k2 : PKey) (d d2 : Descriptor)
    (hndp : (f.proto.props.map Prod.fst).Nodup)
    (hnds : (f.statics.props.map Prod.fst).Nodup)
    (hok : restrict [] (JSVal.callable f) (some (JSVal.object opts)) = .ok (.cls g, reg2))
    (hd : lookupDesc f.proto k = some d)
    (hd2 : lookupDesc f.statics k2 = some d2) :
    ((isExcluded (getProp opts excludeKey) k = true ∨ d.configurable = false) →
        lookupDesc g.proto k = some d) ∧
    (isExcluded (getProp opts excludeKey) k = false → d.configurable = true →
        ((lookupDesc g.proto k).map Descriptor.configurable = some false ∧
         (lookupDesc g.proto k).map Descriptor.enumerable = some false ∧
         (d.value.isSome = true →
            (lookupDesc g.proto k).map Descriptor.writable = some false))) ∧
    ((isExcluded (getProp opts excludeStaticKey) k2 = true ∨ d2.configurable = false) →
        lookupDesc g.statics k2 = some d2) ∧
    (isExcluded (getProp opts excludeStaticKey) k2 = false → d2.configurable = true →
        ((lookupDesc g.statics k2).map Descriptor.configurable = some false ∧
         (lookupDesc g.statics k2).map Descriptor.enumerable = some false ∧
         (d2.value.isSome = true →
            (lookupDesc g.statics k2).map Descriptor.writable = some false))) := by
  rcases restrict_parts f (some (JSVal.object opts)) g reg2 hndp hok with
    ⟨proto1, ex, exS, hnd1, hpres, h2, h4, h3, h5, hid, hname⟩
  have hex : ex = getProp opts excludeKey := by
    simp only [normExceptFor, getMember] at h2
    cases h2
    rfl
  have hexS : exS = getProp opts excludeStaticKey := by
    simp only [normExceptFor, getMember] at h4
    cases h4
    rfl
  subst hex
  subst hexS
  refine ⟨?_, ?_, ?_, ?_⟩
  · intro hskip
    have hb : (isExcluded (getProp opts excludeKey) k || !d.configurable) = true := by
      rcases hskip with h | h <;> simp [h]
    exact restrictProperties_skip _ proto1 false _ g.proto k d hnd1 h3 (hpres k d hd) hb
  · intro hexc hconf
    have hb : (isExcluded (getProp opts excludeKey) k || !d.configurable) = false := by
      simp [hexc, hconf]
    rcases restrictProperties_keep _ proto1 false _ g.proto k d hnd1 h3 (hpres k d hd) hb with
      ⟨d', ht, hlook⟩
    rcases transformDesc_ok_attrs _ false k d d' ht with ⟨hc, he, hw, _⟩
    rw [hlook]
    exact ⟨by simp [hc], by simp [he], fun hv => by simp [hw hv]⟩
  · intro hskip
    have hb : (isExcluded (getProp opts excludeStaticKey) k2 || !d2.configurable) = true := by
      rcases hskip with h | h <;> simp [h]
    exact restrictProperties_skip _ f.statics true _ g.statics k2 d2 hnds h5 hd2 hb
  · intro hexc hconf
    have hb : (isExcluded (getProp opts excludeStaticKey) k2 || !d2.configurable) = false := by
      simp [hexc, hconf]
    rcases restrictProperties_keep _ f.statics true _ g.statics k2 d2 hnds h5 hd2 hb with
      ⟨d', ht, hlook⟩
    rcases transformDesc_ok_attrs _ true k2 d2 d' ht with ⟨hc, he, hw, _⟩
    rw [hlook]
    exact ⟨by simp [hc], by simp [he], fun hv => by simp [hw hv]⟩

/-- Witness for C2: in the restricted sample class the prototype method `m`
(configurable, not excluded) became non-configurable, non-enumerable and
non-writable, while the excluded static `propC` kept its exact descriptor. -/
theorem restrict_locks_attributes_witness :
    ((isExcluded (getProp c2Opts excludeKey) (PKey.str methodMName) = true ∨
        ({ value := some (.func (.base 21)), writable := true,
           configurable := true } : Descriptor).configurable = false) →
      lookupDesc c2Restricted.proto (PKey.str methodMName) =
        some { value := some (.func (.base 21)), writable := true, configurable := true }) ∧
    (isExcluded (getProp c2Opts excludeKey) (PKey.str methodMName) = false →
      ({ value := some (.func (.base 21)), writable := true,
         configurable := true } : Descriptor).configurable = true →
      ((lookupDesc c2Restricted.proto (PKey.str methodMName)).map Descriptor.configurable =
          some false ∧
       (lookupDesc c2Restricted.proto (PKey.str methodMName)).map Descriptor.enumerable =
          some false ∧
       (({ value := some (.func (.base 21)), writable := true,
           configurable := true } : Descriptor).value.isSome = true →
          (lookupDesc c2Restricted.proto (PKey.str methodMName)).map Descriptor.writable =
            some false))) ∧
    ((isExcluded (getProp c2Opts excludeStaticKey) (PKey.str propCName) = true ∨
        ({ value := some (.number 7), writable := true, enumerable := true,
           configurable := true } : Descriptor).configurable = false) →
      lookupDesc c2Restricted.statics (PKey.str propCName) =
        some { value := some (.number 7), writable := true, enumerable := true,
               configurable := true }) ∧
    (isExcluded (getProp c2Opts excludeStaticKey) (PKey.str propCName) = false →
      ({ value := some (.number 7), writable := true, enumerable := true,
         configurable := true } : Descriptor).configurable = true →
      ((lookupDesc c2Restricted.statics (PKey.str propCName)).map Descriptor.configurable =
          some false ∧
       (lookupDesc c2Restricted.statics (PKey.str propCName)).map Descriptor.enumerable =
          some false ∧
       (({ value := some (.number 7), writable := true, enumerable := true,
           configurable := true } : Descriptor).value.isSome = true →
          (lookupDesc c2Restricted.statics (PKey.str propCName)).map Descriptor.writable =
            some false))) :=
  restrict_locks_attributes c2Class c2Opts c2Restricted []
    (PKey.str methodMName) (PKey.str propCName)
    { value := some (.func (.base 21)), writable := true, configurable := true }
    { value := some (.number 7), writable := true, enumerable := true, configurable := true }
    (by decide) (by decide) (by rfl) (by rfl) (by rfl)

/-- C3 (amended): for a completed `restrict`, every configurable,
non-excluded, non-`constructor` function-valued instance property is replaced
by the `validateInterface` guard; a guard invoked with a receiver that is an
instance of the class forwards to the original with the same receiver and the
same arguments and returns the original result, and invoked with a
non-instance receiver it throws a `TypeError` whose message is
`guardFailMessage`; for a string property key that message names the property
and the interface (it is exactly `interfaceErrorMessage`).  String-keyed
accessors are wrapped the same way under prefixed `get `/`set ` labels with
the same runtime behaviour.  (The unamended claim fails for symbol-keyed methods,
whose failure `TypeError` names neither — see the counterexample.) -/
theorem restrict_guards_instance_members
    (f : FuncVal) (opts : Obj) (g : FuncVal) (reg2 : List Nat)
    (k : PKey) (d : Descriptor) (m : Fn)
    (s : String) (da : Descriptor) (gf : Fn)
    (r rn : Receiver) (a an : List Value)
    (hndp : (f.proto.props.map Prod.fst).Nodup)
    (hok : restrict [] (JSVal.callable f) (some (JSVal.object opts)) = .ok (.cls g, reg2))
    (hd : lookupDesc f.proto k = some d)
    (hconf : d.configurable = true)
    (hexc : isExcluded (getProp opts excludeKey) k = false)
    (hval : d.value = some (Value.func m))
    (hctor : k ≠ constructorKey)
    (hda : lookupDesc f.proto (PKey.str s) = some da)
    (hconfa : da.configurable = true)
    (hexca : isExcluded (getProp opts excludeKey) (PKey.str s) = false)
    (hvala : da.value = none)
    (_hga : da.get = some gf)
    (hr : r.isInstanceOf f.id = true)
    (hrn : rn.isInstanceOf f.id = false) :
    (lookupDesc g.proto k).bind Descriptor.value =
      some (Value.func (validateInterface ⟨f.id, f.name⟩ k m)) ∧
    callFn (validateInterface ⟨f.id, f.name⟩ k m) r a = callFn m r a ∧
    callFn (validateInterface ⟨f.id, f.name⟩ k m) rn an =
      .thrown (.typeError (guardFailMessage k f.name)) ∧
    guardFailMessage (PKey.str s) f.name = interfaceErrorMessage s f.name ∧
    (lookupDesc g.proto (PKey.str s)).map Descriptor.get =
      some (da.get.map (validateInterface ⟨f.id, f.name⟩ (PKey.str (getPrefixLabel ++ s)))) ∧
    (lookupDesc g.proto (PKey.str s)).map Descriptor.set =
      some (da.set.map (validateInterface ⟨f.id, f.name⟩ (PKey.str (setPrefixLabel ++ s)))) ∧
    callFn (validateInterface ⟨f.id, f.name⟩ (PKey.str (getPrefixLabel ++ s)) gf) r a =
      callFn gf r a ∧
    callFn (validateInterface ⟨f.id, f.name⟩ (PKey.str (getPrefixLabel ++ s)) gf) rn an =
      .thrown (.typeError (interfaceErrorMessage (getPrefixLabel ++ s) f.name)) := by
  rcases restrict_parts f (some (JSVal.object opts)) g reg2 hndp hok with
    ⟨proto1, ex, exS, hnd1, hpres, h2, h4, h3, h5, hid, hname⟩
  have hex : ex = getProp opts excludeKey := by
    simp only [normExceptFor, getMember] at h2
    cases h2
    rfl
  subst hex
  have hb : (isExcluded (getProp opts excludeKey) k || !d.configurable) = false := by
    simp [hexc, hconf]
  rcases restrictProperties_keep _ proto1 false _ g.proto k d hnd1 h3 (hpres k d hd) hb with
    ⟨d', ht, hlook⟩
  rw [transformDesc_method ⟨f.id, f.name⟩ k d m hval hctor] at ht
  cases ht
  have hba : (isExcluded (getProp opts excludeKey) (PKey.str s) || !da.configurable) = false := by
    simp [hexca, hconfa]
  rcases restrictProperties_keep _ proto1 false _ g.proto (PKey.str s) da hnd1 h3
    (hpres (PKey.str s) da hda) hba with ⟨da', hta, hlooka⟩
  rw [transformDesc_accessor_str ⟨f.id, f.name⟩ s da hvala] at hta
  cases hta
  refine ⟨?_, ?_, ?_, rfl, ?_, ?_, ?_, ?_⟩
  · rw [hlook]
    rfl
  · simp [validateInterface, callFn, hr]
  · simp [validateInterface, callFn, hrn]
  · rw [hlooka]
    rfl
  · rw [hlooka]
    rfl
  · simp [validateInterface, callFn, hr]
  · simp [validateInterface, callFn, hrn, guardFailMessage]

/-- Witness for the amended C3: in the restricted sample class the method `m`
and the accessor `x` are guarded; an instance receiver (prototype chain
containing the class identity 33) is forwarded, a non-instance receiver gets
the `TypeError` naming the member and the interface. -/
theorem restrict_guards_instance_members_witness :
    (lookupDesc c3Restricted.proto (PKey.str methodMName)).bind Descriptor.value =
      some (Value.func (validateInterface ⟨33, paneName⟩ (PKey.str methodMName) (.base 34))) ∧
    callFn (validateInterface ⟨33, paneName⟩ (PKey.str methodMName) (.base 34))
        ⟨[33]⟩ [Value.number 1] =
      callFn (.base 34) ⟨[33]⟩ [Value.number 1] ∧
    callFn (validateInterface ⟨33, paneName⟩ (PKey.str methodMName) (.base 34)) ⟨[]⟩ [] =
      .thrown (.typeError (guardFailMessage (PKey.str methodMName) paneName)) ∧
    guardFailMessage (PKey.str accessorXName) paneName =
      interfaceErrorMessage accessorXName paneName ∧
    (lookupDesc c3Restricted.proto (PKey.str accessorXName)).map Descriptor.get =
      some ((some (Fn.base 35)).map
        (validateInterface ⟨33, paneName⟩ (PKey.str (getPrefixLabel ++ accessorXName)))) ∧
    (lookupDesc c3Restricted.proto (PKey.str accessorXName)).map Descriptor.set =
      some ((some (Fn.base 36)).map
        (validateInterface ⟨33, paneName⟩ (PKey.str (setPrefixLabel ++ accessorXName)))) ∧
    callFn (validateInterface ⟨33, paneName⟩ (PKey.str (getPrefixLabel ++ accessorXName))
        (.base 35)) ⟨[33]⟩ [Value.number 1] =
      callFn (.base 35) ⟨[33]⟩ [Value.number 1] ∧
    callFn (validateInterface ⟨33, paneName⟩ (PKey.str (getPrefixLabel ++ accessorXName))
        (.base 35)) ⟨[]⟩ [] =
      .thrown (.typeError (interfaceErrorMessage (getPrefixLabel ++ accessorXName) paneName)) :=
  restrict_guards_instance_members c3Class {} c3Restricted []
    (PKey.str methodMName)
    { value := some (.func (.base 34)), writable := true, configurable := true }
    (.base 34) accessorXName
    { get := some (.base 35), set := some (.base 36), configurable := true }
    (.base 35) ⟨[33]⟩ ⟨[]⟩ [Value.number 1] []
    (by decide) (by rfl) (by rfl) (by rfl) (by rfl) (by rfl) (by decide)
    (by rfl) (by rfl) (by rfl) (by rfl) (by rfl) (by rfl) (by rfl)

/-- Counterexample to C3 as stated: `restrict` does wrap the symbol-keyed
method, but invoking the guard with a non-instance receiver throws the
symbol-to-string conversion `TypeError` (raised when the guard appends the
symbol `prop` to the opening quote mark, before `iface.name` is ever read), whose
message `Cannot convert a Symbol value to a string` names neither the
property nor the interface — it does not even contain the class name. -/
theorem restrict_guard_symbol_counterexample :
    (lookupDesc c3SymRestricted.proto (PKey.sym 5)).bind Descriptor.value =
      some (Value.func (validateInterface ⟨39, deviceName⟩ (PKey.sym 5) (.base 40))) ∧
    c3SymGuardResult = .thrown (.typeError symbolConversionMsg) ∧
    strContainsB symbolConversionMsg deviceName = false ∧
    symbolConversionMsg ≠ interfaceErrorMessage deviceName deviceName := by
  refine ⟨rfl, rfl, by decide, by decide⟩

/-- Counterexample to C5 as stated: when the instance-side `constructor`
property is an accessor, `restrict` DOES wrap its getter (the source excludes
`constructor` only in the data-value branch), so the `get` function after
`restrict` is not the identical function object it was before. -/
theorem restrict_wraps_accessor_constructor_counterexample :
    (lookupDesc c5AccRestricted.proto constructorKey).map Descriptor.get =
      some (some (validateInterface ⟨50, accClassName⟩
        (PKey.str (getPrefixLabel ++ constructorName)) (.base 51))) ∧
    (lookupDesc c5AccRestricted.proto constructorKey).map Descriptor.get ≠
      some (some (Fn.base 51)) := by
  refine ⟨rfl, by decide⟩

/-- C5 (amended): `restrict` never wraps a call guard around any static
property, and never around the instance-side `constructor` property when that
property is a data property: for every static property the `value`, `get` and
`set` functions after `restrict` are identical to what they were before, and
the data-valued instance `constructor` keeps its identical `value`; only
attribute bits change for these properties.  (The unamended claim fails for
an accessor-valued instance `constructor`, whose getter and setter ARE
wrapped — see the counterexample.) -/
theorem restrict_static_and_constructor_unwrapped
    (f : FuncVal) (opts : Obj) (g : FuncVal) (reg2 : List Nat)
    (k2 : PKey) (d2 dc : Descriptor)
    (hndp : (f.proto.props.map Prod.fst).Nodup)
    (hnds : (f.statics.props.map Prod.fst).Nodup)
    (hok : restrict [] (JSVal.callable f) (some (JSVal.object opts)) = .ok (.cls g, reg2))
    (hd2 : lookupDesc f.statics k2 = some d2)
    (hdc : lookupDesc f.proto constructorKey = some dc)
    (hdcv : dc.value.isSome = true) :
    (lookupDesc g.statics k2).map Descriptor.value = some d2.value ∧
    (lookupDesc g.statics k2).map Descriptor.get = some d2.get ∧
    (lookupDesc g.statics k2).map Descriptor.set = some d2.set ∧
    (lookupDesc g.proto constructorKey).map Descriptor.value = some dc.value := by
  rcases restrict_parts f (some (JSVal.object opts)) g reg2 hndp hok with
    ⟨proto1, ex, exS, hnd1, hpres, h2, h4, h3, h5, hid, hname⟩
  have hstat : (lookupDesc g.statics k2).map Descriptor.value = some d2.value ∧
      (lookupDesc g.statics k2).map Descriptor.get = some d2.get ∧
      (lookupDesc g.statics k2).map Descriptor.set = some d2.set := by
    by_cases hb : (isExcluded exS k2 || !d2.configurable) = true
    · rw [restrictProperties_skip _ f.statics true _ g.statics k2 d2 hnds h5 hd2 hb]
      exact ⟨rfl, rfl, rfl⟩
    · rcases restrictProperties_keep _ f.statics true _ g.statics k2 d2 hnds h5 hd2
        (Bool.eq_false_iff.mpr hb) with ⟨d', ht, hlook⟩
      rw [transformDesc_static ⟨f.id, f.name⟩ k2 d2] at ht
      cases ht
      rw [hlook]
      exact ⟨rfl, rfl, rfl⟩
  refine ⟨hstat.1, hstat.2.1, hstat.2.2, ?_⟩
  rcases Option.isSome_iff_exists.mp hdcv with ⟨vc, hvc⟩
  by_cases hb : (isExcluded ex constructorKey || !dc.configurable) = true
  · rw [restrictProperties_skip _ proto1 false _ g.proto constructorKey dc hnd1 h3
      (hpres constructorKey dc hdc) hb]
    rfl
  · rcases restrictProperties_keep _ proto1 false _ g.proto constructorKey dc hnd1 h3
      (hpres constructorKey dc hdc) (Bool.eq_false_iff.mpr hb) with ⟨d', ht, hlook⟩
    rw [transformDesc_data_noWrap ⟨f.id, f.name⟩ constructorKey dc vc hvc (Or.inr rfl)] at ht
    cases ht
    rw [hlook]
    rfl

/-- Witness for the amended C5: the static function-valued `create` keeps its
identical function object (even though, being a function, it would have been
wrapped on the instance side), and the data-valued `constructor` keeps its
identical value. -/
theorem restrict_static_and_constructor_unwrapped_witness :
    (lookupDesc c5Restricted.statics (PKey.str staticFName)).map Descriptor.value =
      some (some (Value.func (.base 56))) ∧
    (lookupDesc c5Restricted.statics (PKey.str staticFName)).map Descriptor.get =
      some none ∧
    (lookupDesc c5Restricted.statics (PKey.str staticFName)).map Descriptor.set =
      some none ∧
    (lookupDesc c5Restricted.proto constructorKey).map Descriptor.value =
      some (some (Value.func (.base 55))) :=
  restrict_static_and_constructor_unwrapped c5Class {} c5Restricted []
    (PKey.str staticFName)
    { value := some (.func (.base 56)), writable := true, configurable := true }
    { value := some (.func (.base 55)), writable := true, configurable := true }
    (by decide) (by decide) (by rfl) (by rfl) (by rfl) (by rfl)

/-- C6 (amended): when the prototype lacks an own type-tag symbol property,
a completed `restrict(C, E)` defines one whose value is `E.name` when the
options carry an own `name`, and the constructor name otherwise (with the
`defineProperty` default attributes, all `false`).  When an own type-tag
property is already present, no tag definition happens and its stored value is
preserved (shown here for non-function tag values — a function-valued tag
would be wrapped by the general method-guard rule; attribute bits are still
subject to the general restriction rule, which is what refutes the original
leaves-it-unchanged wording — see the counterexample). -/
theorem restrict_defines_type_tag
    (f : FuncVal) (opts : Obj) (g : FuncVal) (reg2 : List Nat)
    (hndp : (f.proto.props.map Prod.fst).Nodup)
    (hok : restrict [] (JSVal.callable f) (some (JSVal.object opts)) = .ok (.cls g, reg2)) :
    (hasOwn f.proto toStringTagKey = false →
        lookupDesc g.proto toStringTagKey =
          some (tagDescriptor (if hasOwn opts nameKey = true then getProp opts nameKey
            else Value.str f.name))) ∧
    (hasOwn f.proto toStringTagKey = true →
      optValueIsFunc (lookupDesc f.proto toStringTagKey) = false →
        (lookupDesc g.proto toStringTagKey).bind Descriptor.value =
          (lookupDesc f.proto toStringTagKey).bind Descriptor.value) := by
  rcases restrict_callable_ok [] f (some (JSVal.object opts)) g reg2 hok with
    ⟨hreg, hrh, hproto, hrc⟩
  rcases restrictClass_ok_parts f (normExceptFor (some (JSVal.object opts))) g hrc with
    ⟨proto1, ex, proto2, exS, statics2, h1, h2, h3, h4, h5, hg⟩
  subst hg
  constructor
  · intro htag
    rcases tagStep_absent_parts f.proto _ f.name proto1 h1 htag with ⟨v, hv, hx, hp1⟩
    have hvv : v = (if hasOwn opts nameKey = true then getProp opts nameKey
        else Value.str f.name) := by
      simp only [normExceptFor, tagChoice] at hv
      by_cases hn : hasOwn opts nameKey = true
      · rw [if_pos hn] at hv ⊢
        simp [hn] at hv
        exact hv.symm
      · rw [if_neg hn] at hv ⊢
        simp [Bool.eq_false_iff.mpr hn] at hv
        exact hv.symm
    subst hp1
    have hnd1 : ((({ f.proto with
        props := f.proto.props ++ [(toStringTagKey, tagDescriptor v)] } : Obj)).props.map
          Prod.fst).Nodup :=
      nodup_append_key f.proto toStringTagKey (tagDescriptor v) hndp htag
    have hlook1 : lookupDesc { f.proto with
        props := f.proto.props ++ [(toStringTagKey, tagDescriptor v)] } toStringTagKey =
        some (tagDescriptor v) := by
      unfold lookupDesc
      rw [assocFind_append]
      have hnone : assocFind f.proto.props toStringTagKey = none := by
        rcases ha : assocFind f.proto.props toStringTagKey with _ | d0
        · rfl
        · exact absurd (show hasOwn f.proto toStringTagKey = true by
            unfold hasOwn lookupDesc; simp [ha]) (by simp [htag])
      rw [hnone, assocFind_cons]
      simp
    have hskip : (isExcluded ex toStringTagKey || !(tagDescriptor v).configurable) = true := by
      simp [tagDescriptor]
    have := restrictProperties_skip _ _ false ex proto2 toStringTagKey (tagDescriptor v)
      hnd1 h3 hlook1 hskip
    rw [hvv] at this
    exact this
  · intro htag hnf
    rcases hold : lookupDesc f.proto toStringTagKey with _ | dt
    · exfalso
      unfold hasOwn at htag
      rw [hold] at htag
      simp at htag
    · rw [tagStep_present f.proto _ f.name htag] at h1
      cases h1
      simp only [optValueIsFunc] at hnf
      by_cases hb : (isExcluded ex toStringTagKey || !dt.configurable) = true
      · rw [restrictProperties_skip _ f.proto false ex proto2 toStringTagKey dt hndp h3
          hold hb]
      · rcases restrictProperties_keep _ f.proto false ex proto2 toStringTagKey dt hndp h3
          hold (Bool.eq_false_iff.mpr hb) with ⟨d', ht, hlook⟩
        have hval : d'.value = dt.value := by
          apply transformDesc_value_preserved _ false toStringTagKey dt d' ht
          rcases hdv : dt.value with _ | v0
          · exact Or.inl (by simp [hdv])
          · refine Or.inr (Or.inr (Or.inl ?_))
            intro m0 hm0
            cases hm0
            rw [hold] at hnf
            simp only at hnf
            rw [hdv] at hnf
            simp [Value.isFunc] at hnf
        rw [hlook]
        simp [hval]

/-- Witness for the amended C6: the attribute-claim sample class lacks an own
type tag and its options carry no `name`, so restriction defines the tag with
the constructor name `Gadget` and the `defineProperty` default attributes. -/
theorem restrict_defines_type_tag_witness :
    (hasOwn c2Class.proto toStringTagKey = false →
        lookupDesc c2Restricted.proto toStringTagKey =
          some (tagDescriptor (if hasOwn c2Opts nameKey = true then getProp c2Opts nameKey
            else Value.str c2Class.name))) ∧
    (hasOwn c2Class.proto toStringTagKey = true →
      optValueIsFunc (lookupDesc c2Class.proto toStringTagKey) = false →
        (lookupDesc c2Restricted.proto toStringTagKey).bind Descriptor.value =
          (lookupDesc c2Class.proto toStringTagKey).bind Descriptor.value) :=
  restrict_defines_type_tag c2Class c2Opts c2Restricted [] (by decide) (by rfl)

/-- Counterexample to C6 as stated: a prototype that already owns a
configurable data type-tag does NOT keep it unchanged — `restrict` skips the
tag-definition step but the general property pass still rewrites the tag
attributes (non-configurable, non-enumerable, non-writable), so the
descriptor after the call differs from the descriptor before it (only the
stored value is preserved). -/
theorem restrict_existing_tag_counterexample :
    lookupDesc c6TagClass.proto toStringTagKey =
      some { value := some (.str tagValName), writable := true, enumerable := true,
             configurable := true } ∧
    lookupDesc c6TagRestricted.proto toStringTagKey =
      some { value := some (.str tagValName), writable := false, enumerable := false,
             configurable := false } ∧
    lookupDesc c6TagRestricted.proto toStringTagKey ≠
      lookupDesc c6TagClass.proto toStringTagKey := by
  refine ⟨rfl, rfl, by decide⟩

/-- C1 evaluated at the failing input (this claim is a code bug: the source
creates `restrictMap` and consults it, but no code path ever adds a processed
class to it).  A completed `restrict` call excluding the key `m` leaves the
registry exactly as it was — still empty, so `C` is NOT recorded — and a
later `restrict(C)` call is NOT a no-op: it re-processes the class and wraps
the previously excluded method `m`, returning a class state different from
the one the first call produced. -/
theorem restrict_registry_never_populated :
    restrict [] (JSVal.callable c1Class) (some (JSVal.object c1Opts)) =
      .ok (.cls c1After1, []) ∧
    (lookupDesc c1After1.proto (PKey.str methodMName)).bind Descriptor.value =
      some (Value.func (.base 12)) ∧
    restrict [] (JSVal.callable c1After1) none = .ok (.cls c1After2, []) ∧
    (lookupDesc c1After2.proto (PKey.str methodMName)).bind Descriptor.value =
      some (Value.func (validateInterface ⟨11, widgetName⟩ (PKey.str methodMName) (.base 12))) ∧
    c1After2 ≠ c1After1 := by
  refine ⟨rfl, rfl, rfl, rfl, by decide⟩

/-- C7: the iterator returned by `propertiesOf(o)` yields exactly one
(key, descriptor) pair per own key of `o` — the string keys in enumeration
order followed by the symbol keys, a list that is duplicate-free and a
permutation of the own keys — where the `n`-th requested step reports the
`n`-th key together with the descriptor read from the object state at the
moment that step is requested (the laziness conjunct quantifies over an
arbitrary current object state `oCur` and iterator state `s`); once the keys
are exhausted every further `next()` reports `done` with the emptied, frozen
array.  The embedding of `iterNext` is a total function and primitives are
routed through `toObject`, which renders the clause that no call raises an
error and primitives are coerced to wrappers first. -/
theorem propertiesOf_enumerates_own_properties
    (v : JSVal) (n m : Nat) (oCur : Obj) (s : IterState)
    (hnd : ((toObject v).props.map Prod.fst).Nodup)
    (hn : n < (propertiesOf v).keys.length)
    (hm : (propertiesOf v).keys.length ≤ m)
    (hs : s.index < s.keys.length) :
    ((propertiesOf v).keys = stringKeys (toObject v) ++ symbolKeys (toObject v) ∧
     List.Perm (propertiesOf v).keys ((toObject v).props.map Prod.fst) ∧
     (propertiesOf v).keys.Nodup) ∧
    (iterSteps (toObject v) (propertiesOf v) (n + 1)).result =
      { done := false,
        value := [IterCell.key ((propertiesOf v).keys.get ⟨n, hn⟩),
                  IterCell.desc (lookupDesc (toObject v) ((propertiesOf v).keys.get ⟨n, hn⟩))],
        frozen := false } ∧
    (iterNext oCur s).result.value =
      [IterCell.key (s.keys.get ⟨s.index, hs⟩),
       IterCell.desc (lookupDesc oCur (s.keys.get ⟨s.index, hs⟩))] ∧
    (iterSteps (toObject v) (propertiesOf v) (m + 1)).result =
      { done := true, value := [], frozen := true } := by
  refine ⟨⟨rfl, ownKeys_perm (toObject v), ownKeys_nodup (toObject v) hnd⟩, ?_, ?_, ?_⟩
  · exact congrArg IterState.result (iterSteps_run (toObject v) (ownKeys (toObject v)) {} n hn)
  · unfold iterNext
    rw [dif_pos hs]
  · exact iterSteps_exhaust (toObject v) (ownKeys (toObject v)) {} m hm

/-- Witness for C7 on the two-property sample object: the first step yields
the string key `a` with its descriptor, and from the third call on the
iterator reports `done` with the emptied frozen array. -/
theorem propertiesOf_enumerates_own_properties_witness :
    ((propertiesOf c7Val).keys = stringKeys (toObject c7Val) ++ symbolKeys (toObject c7Val) ∧
     List.Perm (propertiesOf c7Val).keys ((toObject c7Val).props.map Prod.fst) ∧
     (propertiesOf c7Val).keys.Nodup) ∧
    (iterSteps (toObject c7Val) (propertiesOf c7Val) 1).result =
      { done := false,
        value := [IterCell.key (PKey.str alphaPropName),
                  IterCell.desc (lookupDesc (toObject c7Val) (PKey.str alphaPropName))],
        frozen := false } ∧
    (iterNext (toObject c7Val) (propertiesOf c7Val)).result.value =
      [IterCell.key (PKey.str alphaPropName),
       IterCell.desc (lookupDesc (toObject c7Val) (PKey.str alphaPropName))] ∧
    (iterSteps (toObject c7Val) (propertiesOf c7Val) 3).result =
      { done := true, value := [], frozen := true } :=
  propertiesOf_enumerates_own_properties c7Val 0 2 (toObject c7Val) (propertiesOf c7Val)
    (by decide) (by decide) (by decide) (by decide)

/-- C10: every `next()` call hands back the single result record of the iterator,
whose `value` array is mutated in place.  In the embedding that single record
is the `result` field of the iterator state, so the claim renders as: after
step `n+1` the record holds exactly the `(n+1)`-th pair, after the following
step the very same record holds the next pair instead (so a retained
reference — the record — observes the newer pair, the older one being gone),
and after exhaustion every retained reference observes the same emptied,
frozen array at every later call. -/
theorem propertiesOf_shared_result_overwritten
    (v : JSVal) (n m : Nat)
    (h2 : n + 1 < (propertiesOf v).keys.length)
    (hm : (propertiesOf v).keys.length ≤ m) :
    (iterSteps (toObject v) (propertiesOf v) (n + 1)).result.value =
      [IterCell.key ((propertiesOf v).keys.get ⟨n, Nat.lt_of_succ_lt h2⟩),
       IterCell.desc (lookupDesc (toObject v)
         ((propertiesOf v).keys.get ⟨n, Nat.lt_of_succ_lt h2⟩))] ∧
    (iterSteps (toObject v) (propertiesOf v) (n + 2)).result.value =
      [IterCell.key ((propertiesOf v).keys.get ⟨n + 1, h2⟩),
       IterCell.desc (lookupDesc (toObject v) ((propertiesOf v).keys.get ⟨n + 1, h2⟩))] ∧
    (iterSteps (toObject v) (propertiesOf v) (m + 1)).result =
      { done := true, value := [], frozen := true } ∧
    (iterSteps (toObject v) (propertiesOf v) (m + 2)).result =
      { done := true, value := [], frozen := true } := by
  refine ⟨?_, ?_, ?_, ?_⟩
  · exact congrArg (fun s => s.result.value)
      (iterSteps_run (toObject v) (ownKeys (toObject v)) {} n (Nat.lt_of_succ_lt h2))
  · exact congrArg (fun s => s.result.value)
      (iterSteps_run (toObject v) (ownKeys (toObject v)) {} (n + 1) h2)
  · exact iterSteps_exhaust (toObject v) (ownKeys (toObject v)) {} m hm
  · exact iterSteps_exhaust (toObject v) (ownKeys (toObject v)) {} (m + 1) (Nat.le_succ_of_le hm)

/-- Witness for C10 on a two-property object: after the first step the shared
record holds the `a` pair, after the second step the same record holds the
`b` pair instead, and the third and fourth calls both observe the emptied
frozen array. -/
theorem propertiesOf_shared_result_overwritten_witness :
    (iterSteps (toObject c10Val) (propertiesOf c10Val) 1).result.value =
      [IterCell.key (PKey.str alphaPropName),
       IterCell.desc (lookupDesc (toObject c10Val) (PKey.str alphaPropName))] ∧
    (iterSteps (toObject c10Val) (propertiesOf c10Val) 2).result.value =
      [IterCell.key (PKey.str betaPropName),
       IterCell.desc (lookupDesc (toObject c10Val) (PKey.str betaPropName))] ∧
    (iterSteps (toObject c10Val) (propertiesOf c10Val) 3).result =
      { done := true, value := [], frozen := true } ∧
    (iterSteps (toObject c10Val) (propertiesOf c10Val) 4).result =
      { done := true, value := [], frozen := true } :=
  propertiesOf_shared_result_overwritten c10Val 0 2 (by decide) (by decide)

end ClassUtils
